import Mathlib

/-!
Verification development for the Council repository: a shallow embedding of
the multi-expert execution and synthesis pipeline and of the store logic
referenced by the claims, together with theorems settling each claim.

Conventions: TypeScript numbers that are only ever integers are embedded as
Nat; numbers that undergo division (costs, durations, averages, rates) are
embedded as the rationals. JavaScript Map objects and plain string-keyed
record objects are embedded as insertion-ordered association lists, with
in-place update on an existing key and append on a fresh key, which is the
observable JS semantics. Fallible computations are embedded with Except.
-/

/-! ## Part 1: the dashboard metrics store (src/features/dashboard/store/dashboard-store.ts) -/

namespace Dashboard

/-- Execution mode of a council run, as fixed by the code in src: the object
literals typed as a Record over ExecutionMode in dashboard-store.ts
(calculateMetrics empty case, initial metrics, clearAllData) enumerate the
keys parallel, consensus, adversarial, sequential, and the inline union of
ReportRouting.executionMode in feature.types.ts lists exactly the same four
string literals. -/
inductive ExecutionMode where
  | parallel
  | consensus
  | adversarial
  | sequential
deriving DecidableEq, Repr

/-- String value of an ExecutionMode case; in TypeScript the type is the
union of exactly these string literals, so the case and its name coincide. -/
def ExecutionMode.name : ExecutionMode → String
  | .parallel => "parallel"
  | .consensus => "consensus"
  | .adversarial => "adversarial"
  | .sequential => "sequential"

/-- DecisionRecord from dashboard-store.ts (lines 14-27): one persisted
council decision. Date values are embedded as millisecond timestamps. -/
structure DecisionRecord where
  id : Option Nat
  timestamp : Nat
  mode : ExecutionMode
  task : String
  expertCount : Nat
  duration : ℚ
  cost : ℚ
  verdict : String
  synthesisContent : Option String
  synthesisModel : Option String
  synthesisTier : Option String
  success : Bool
deriving DecidableEq, Repr

/-- DecisionMetrics from dashboard-store.ts (lines 5-12). The TypeScript
field modeDistribution is a string-keyed record object, embedded as an
insertion-ordered association list from mode name to count. -/
structure DecisionMetrics where
  totalDecisions : Nat
  averageTime : ℚ
  averageCost : ℚ
  successRate : ℚ
  expertConsensusRate : ℚ
  modeDistribution : List (String × Nat)
deriving DecidableEq, Repr

/-- One step of the modeDistribution reduce in calculateMetrics:
acc[d.mode] = (acc[d.mode] || 0) + 1 on a plain JS object, i.e. increment in
place when the key exists, append the key with count 1 otherwise. -/
def bump : List (String × Nat) → String → List (String × Nat)
  | [], k => [(k, 1)]
  | (k', n) :: rest, k =>
      if k' = k then (k, n + 1) :: rest else (k', n) :: bump rest k

/-- calculateMetrics from dashboard-store.ts (lines 45-79): aggregate
metrics over a list of decisions; on an empty list the returned
modeDistribution is the literal object with the four mode keys at zero. -/
def calculateMetrics (decisions : List DecisionRecord) : DecisionMetrics :=
  if decisions.length = 0 then
    { totalDecisions := 0
      averageTime := 0
      averageCost := 0
      successRate := 0
      expertConsensusRate := 0
      modeDistribution :=
        [("parallel", 0), ("consensus", 0), ("adversarial", 0), ("sequential", 0)] }
  else
    let totalTime := decisions.foldl (fun sum d => sum + d.duration) 0
    let totalCost := decisions.foldl (fun sum d => sum + d.cost) 0
    let successCount := (decisions.filter (fun d => d.success)).length
    let modeDistribution := decisions.foldl (fun acc d => bump acc d.mode.name) []
    { totalDecisions := decisions.length
      averageTime := totalTime / (decisions.length : ℚ)
      averageCost := totalCost / (decisions.length : ℚ)
      successRate := ((successCount : ℚ) / (decisions.length : ℚ)) * 100
      expertConsensusRate := 85
      modeDistribution := modeDistribution }

/-- Mode names as they appear in the code of src. -/
def codeModeNames : List String := ["parallel", "consensus", "adversarial", "sequential"]

/-- Mode names as the specification document spells them. -/
def specModeNames : List String := ["separated", "synthesis", "debate", "pipeline"]

end Dashboard

/-! ## Part 2: the plugin registry (src/lib/plugin-manager.ts, src/lib/plugins.ts) -/

namespace Plugins

/-- ExpertPlugin from plugins.ts: the data fields of the interface. The
renderConfig, execute, validateConfig and defaultConfig members are UI or
behaviour payload never inspected by the registry; they are embedded as an
opaque payload index so that distinct plugins stay distinct. -/
structure ExpertPlugin where
  id : String
  name : String
  description : String
  icon : Option String
  payload : Nat
deriving DecidableEq, Repr

/-- Insertion-ordered map state of the PluginManager singleton: the
expertPlugins field of type Map from string to ExpertPlugin. -/
def RegistryState := List (String × ExpertPlugin)

/-- Map.prototype.set semantics: overwrite in place when the key exists,
append when it does not. -/
def mapSet : List (String × ExpertPlugin) → String → ExpertPlugin → List (String × ExpertPlugin)
  | [], k, v => [(k, v)]
  | (k', v') :: rest, k, v =>
      if k' = k then (k, v) :: rest else (k', v') :: mapSet rest k v

/-- registerExpertPlugin from plugin-manager.ts: this.expertPlugins.set(plugin.id, plugin). -/
def registerExpertPlugin (m : List (String × ExpertPlugin)) (p : ExpertPlugin) :
    List (String × ExpertPlugin) :=
  mapSet m p.id p

/-- getExpertPlugin from plugin-manager.ts: this.expertPlugins.get(id). -/
def getExpertPlugin (m : List (String × ExpertPlugin)) (id : String) : Option ExpertPlugin :=
  (m.find? (fun kv => kv.1 = id)).map (fun kv => kv.2)

/-- getAllExpertPlugins from plugin-manager.ts: Array.from(this.expertPlugins.values()). -/
def getAllExpertPlugins (m : List (String × ExpertPlugin)) : List ExpertPlugin :=
  m.map (fun kv => kv.2)

/-- Well-formedness of a registry state, true of every state reachable by
registerExpertPlugin from the empty map: each entry is stored under its own
plugin id, and keys are distinct (a JS Map cannot hold a key twice). -/
def WellFormed (m : List (String × ExpertPlugin)) : Prop :=
  (∀ kv ∈ m, kv.2.id = kv.1) ∧ (m.map Prod.fst).Nodup

end Plugins

/-! ## Part 3: the automation features store (src/features/automation/store/features-store.ts
and src/features/automation/types/feature.types.ts) -/

namespace Features

/-- Status of one feature execution, from feature.types.ts; the case
partialOutcome embeds the string literal written as p-a-r-t-i-a-l in the
source, renamed here because that word is a Lean keyword. -/
inductive ExecStatus where
  | success
  | failed
  | partialOutcome
deriving DecidableEq, Repr

/-- FeatureStatus from feature.types.ts; errored embeds the source literal
spelled e-r-r-o-r. -/
inductive FeatureStatus where
  | active
  | inactive
  | running
  | errored
  | paused
deriving DecidableEq, Repr

/-- FeatureMetrics from feature.types.ts. Date fields are millisecond
timestamps; rates and averages undergo division and are rationals. -/
structure FeatureMetrics where
  lastRun : Option Nat
  nextRun : Option Nat
  successRate : ℚ
  totalRuns : Nat
  reportsGenerated : Nat
  averageExecutionTime : ℚ
  lastError : Option String
deriving DecidableEq, Repr

/-- Reference to a generated FeatureReport; completeExecution only reads the
id of the optional report attached to an ExecutionResult, so only that field
is carried. -/
structure ReportRef where
  id : String
deriving DecidableEq, Repr

/-- ExecutionResult from feature.types.ts. -/
structure ExecutionResult where
  featureId : String
  executionId : String
  status : ExecStatus
  report : Option ReportRef
  error : Option String
  executionTime : ℚ
  timestamp : Nat
deriving DecidableEq, Repr

/-- ExecutionHistory from feature.types.ts. -/
structure ExecutionHistory where
  executionId : String
  featureId : String
  timestamp : Nat
  status : ExecStatus
  executionTime : ℚ
  error : Option String
  reportId : Option String
deriving DecidableEq, Repr

/-- ActiveExecution from feature.types.ts. -/
structure ActiveExecution where
  featureId : String
  executionId : String
  startTime : Nat
  progress : ℚ
  currentPhase : String
deriving DecidableEq, Repr

/-- FeatureDefinition from feature.types.ts. The defaultConfig payload (a
pure configuration record that completeExecution copies unchanged through
the object spread) and the category tag are irrelevant to the store update
logic and carried as plain data. -/
structure FeatureDefinition where
  id : String
  name : String
  category : String
  description : String
  icon : String
  enabled : Bool
  status : FeatureStatus
  metrics : FeatureMetrics
deriving DecidableEq, Repr

/-- RuthlessJudgeMode union from feature.types.ts ReportRouting. -/
inductive RuthlessJudgeMode where
  | quick
  | balanced
  | deep
deriving DecidableEq, Repr

/-- ReportRouting from feature.types.ts (lines 505-514). Its executionMode
field carries the inline union of exactly the four string literals
parallel, sequential, consensus, adversarial, embedded through
Dashboard.ExecutionMode. -/
structure ReportRouting where
  sendToRuthlessJudge : Bool
  ruthlessJudgeMode : RuthlessJudgeMode
  sendToCouncil : Bool
  specificExperts : Option (List String)
  executionMode : Dashboard.ExecutionMode
  directToExperts : Option (List String)
  notifyOnComplete : Bool
  notifyOnError : Bool
deriving DecidableEq, Repr

/-- State slice of the features store that the execution actions touch. -/
structure FeaturesState where
  features : List FeatureDefinition
  activeExecutions : List ActiveExecution
  executionHistory : List ExecutionHistory
deriving DecidableEq, Repr

/-- History entry built by completeExecution in features-store.ts
(lines 136-144) from an ExecutionResult. -/
def mkHistoryEntry (result : ExecutionResult) : ExecutionHistory :=
  { executionId := result.executionId
    featureId := result.featureId
    timestamp := result.timestamp
    status := result.status
    executionTime := result.executionTime
    reportId := result.report.map (fun r => r.id)
    error := result.error }

/-- Per-feature update performed inside the features.map of completeExecution
(features-store.ts lines 151-178) on the feature whose id matches. -/
def updatedFeature (f : FeatureDefinition) (result : ExecutionResult) : FeatureDefinition :=
  let totalRuns := f.metrics.totalRuns + 1
  let successfulRuns : ℚ :=
    f.metrics.successRate * (f.metrics.totalRuns : ℚ) +
      (if result.status = ExecStatus.success then 1 else 0)
  let reportsGenerated :=
    f.metrics.reportsGenerated + (if result.report.isSome then 1 else 0)
  let avgTime : ℚ :=
    (f.metrics.averageExecutionTime * (f.metrics.totalRuns : ℚ) + result.executionTime) /
      (totalRuns : ℚ)
  { f with
    status := if f.enabled then FeatureStatus.active else FeatureStatus.inactive
    metrics := { f.metrics with
      lastRun := some result.timestamp
      successRate := successfulRuns / (totalRuns : ℚ)
      totalRuns := totalRuns
      reportsGenerated := reportsGenerated
      averageExecutionTime := avgTime
      lastError := result.error } }

/-- completeExecution from features-store.ts (lines 130-180): when no
feature carries the result's featureId the action returns without setting
state; otherwise it drops the matching active executions, prepends one
history entry and rewrites the matching feature's status and metrics. -/
def completeExecution (state : FeaturesState) (result : ExecutionResult) : FeaturesState :=
  match state.features.find? (fun f => f.id == result.featureId) with
  | none => state
  | some _ =>
      { features := state.features.map (fun f =>
          if f.id ≠ result.featureId then f else updatedFeature f result)
        activeExecutions := state.activeExecutions.filter
          (fun e => e.executionId != result.executionId)
        executionHistory := mkHistoryEntry result :: state.executionHistory }

end Features

/-! ## Part 4: the multi-expert execution and synthesis pipeline

The orchestration core described by the specification (the council code under
src/features/council: api/ai-client.ts with callExpert, lib/types.ts, the
useExecuteSynthesis hook, and src/lib/synthesis-engine.ts) is not present
under src of this snapshot; only its documentation and UI callers are.
Following the specification, the components below are therefore modelled
from the spec text. External model calls are represented by a caller
supplied stub indexed by a global call counter, which is exactly the test
double the testable properties of the spec describe. -/

namespace Council

/-- Modelled from the spec: ExecutionMode of the orchestration core
(src/features/council/lib/types.ts, missing from src), an enumerated
variant with the four cases the spec names. -/
inductive ExecutionMode where
  | separated
  | synthesis
  | debate
  | pipeline
deriving DecidableEq, Repr

/-- Modelled from the spec: failure classification of ModelInvoker
(ai-client.ts, missing from src). -/
inductive InvocationErrorKind where
  | AuthError
  | RateLimited
  | Timeout
  | ProviderError
  | InvalidResponse
deriving DecidableEq, Repr

/-- Modelled from the spec: RateLimited, Timeout and ProviderError are
retryable; AuthError and InvalidResponse are surfaced immediately. -/
def retryable : InvocationErrorKind → Bool
  | .RateLimited => true
  | .Timeout => true
  | .ProviderError => true
  | .AuthError => false
  | .InvalidResponse => false

/-- Modelled from the spec: successful payload of one ModelInvoker call:
generated text, token usage, monetary cost. -/
structure ModelSuccess where
  text : String
  usageTokens : Nat
  costUsd : ℚ
deriving DecidableEq, Repr

/-- Stub for the external provider boundary: outcome of the nth physical
model call of a run. -/
def InvokerStub : Type := Nat → Except InvocationErrorKind ModelSuccess

/-- Modelled from the spec: retry configuration of ModelInvoker; the spec
fixes at most 2 automatic retries, with base delay and cap supplied by
configuration. -/
structure RetryPolicy where
  maxRetries : Nat
  baseDelayMs : Nat
  capMs : Nat
deriving DecidableEq, Repr

/-- Retry policy with the maximum of 2 automatic retries the spec states. -/
def defaultPolicy (baseDelayMs capMs : Nat) : RetryPolicy :=
  { maxRetries := 2, baseDelayMs := baseDelayMs, capMs := capMs }

/-- Modelled from the spec: exponential backoff, base delay times 2 to the
attempt, capped. -/
def backoffDelayMs (p : RetryPolicy) (attempt : Nat) : Nat :=
  min (p.baseDelayMs * 2 ^ attempt) p.capMs

deriving instance DecidableEq for Except

/-- Outcome of ModelInvoker.invoke together with its accounting: how many
physical calls were made and the total backoff delay incurred. -/
structure InvokeOutcome where
  result : Except InvocationErrorKind ModelSuccess
  callsMade : Nat
  totalDelayMs : Nat
deriving DecidableEq, Repr

/-- Modelled from the spec: the attempt loop of ModelInvoker.invoke. The
first argument is the number of retries still allowed, then the index of
the current attempt and the delay accumulated so far; a retryable failure
with retries remaining sleeps the capped exponential backoff and tries
again, any other outcome is returned. -/
def invokeFrom (p : RetryPolicy) (stub : InvokerStub) (start : Nat) :
    Nat → Nat → Nat → InvokeOutcome
  | 0, attempt, delay =>
      match stub (start + attempt) with
      | .ok s => ⟨.ok s, attempt + 1, delay⟩
      | .error e => ⟨.error e, attempt + 1, delay⟩
  | remaining + 1, attempt, delay =>
      match stub (start + attempt) with
      | .ok s => ⟨.ok s, attempt + 1, delay⟩
      | .error e =>
          if retryable e then
            invokeFrom p stub start remaining (attempt + 1)
              (delay + backoffDelayMs p attempt)
          else ⟨.error e, attempt + 1, delay⟩

/-- Modelled from the spec: ModelInvoker.invoke with its retry policy; the
stub stands for the network boundary, consuming one call index per physical
call starting at the given index. -/
def ModelInvoker.invoke (p : RetryPolicy) (stub : InvokerStub) (start : Nat) : InvokeOutcome :=
  invokeFrom p stub start p.maxRetries 0 0

/-- Modelled from the spec: typed outcome of one expert invocation, ok or
failed with reason. -/
inductive Outcome where
  | ok
  | failed (reason : String)
deriving DecidableEq, Repr

/-- Modelled from the spec: ExpertResult, the outcome of one ExpertRunner
invocation. -/
structure ExpertResult where
  personaId : String
  output : String
  outcome : Outcome
  usageTokens : Nat
  costUsd : ℚ
  durationMs : Nat
deriving DecidableEq, Repr

/-- True when the result outcome is ok. -/
def ExpertResult.isOk (r : ExpertResult) : Bool :=
  match r.outcome with
  | .ok => true
  | .failed _ => false

/-- Modelled from the spec: optional per-mode behaviour override of a
persona. -/
structure ModeBehavior where
  promptFragment : String
  isEnabled : Bool
deriving DecidableEq, Repr

/-- Modelled from the spec: PersonaConfig, the immutable configuration of
one expert. -/
structure PersonaConfig where
  id : String
  name : String
  model : String
  persona : String
  hasWebSearch : Bool
  modeBehavior : Option ModeBehavior
deriving DecidableEq, Repr

/-- Modelled from the spec: generic default behavioural instruction used
when a persona lacks a mode behaviour override. -/
def defaultModeInstruction : ExecutionMode → String
  | .separated => "Answer the task independently of the other experts."
  | .synthesis => "Answer the task; your output will be synthesized with the other expert outputs."
  | .debate => "Critique and respond to the prior round outputs of the other experts."
  | .pipeline => "Build on and refine the outputs of the previous experts."

/-- Modelled from the spec: mode specific instruction block, taking the
persona override when present and enabled, otherwise the generic default. -/
def modeInstruction (persona : PersonaConfig) (mode : ExecutionMode) : String :=
  match persona.modeBehavior with
  | some b => if b.isEnabled then b.promptFragment else defaultModeInstruction mode
  | none => defaultModeInstruction mode

/-- Modelled from the spec: rendering of one prior ExpertResult inside the
injected context; a failed predecessor is explicitly noted rather than
silently treated as empty. -/
def contextLine (r : ExpertResult) : String :=
  match r.outcome with
  | .ok => "[" ++ r.personaId ++ "]: " ++ r.output
  | .failed _ => "[" ++ r.personaId ++ "]: output unavailable, this expert failed"

/-- Serialized rendering of the prior outputs passed to a persona, one line
per prior ExpertResult. -/
def renderContextLines (ctx : List ExpertResult) : List String :=
  ctx.map contextLine

/-- Modelled from the spec: truncation of the injected context to a bounded
character budget, a configuration constant. -/
def truncateToBudget (budget : Nat) (s : String) : String :=
  s.take budget

/-- Modelled from the spec: PromptBuilder.buildSystemPrompt, a pure
composition of persona text, mode instruction block, and, for pipeline and
debate, the serialized truncated context. -/
def buildSystemPrompt (budget : Nat) (persona : PersonaConfig) (mode : ExecutionMode)
    (context : List ExpertResult) : String :=
  persona.persona ++ "\n" ++ modeInstruction persona mode ++
    (match mode with
     | .pipeline =>
         "\n" ++ truncateToBudget budget (String.intercalate "\n" (renderContextLines context))
     | .debate =>
         "\n" ++ truncateToBudget budget (String.intercalate "\n" (renderContextLines context))
     | _ => "")

/-- Human readable reason recorded on an ExpertResult when the underlying
invocation failed. -/
def errorReason : InvocationErrorKind → String
  | .AuthError => "auth error: bad or missing credential"
  | .RateLimited => "rate limited by provider"
  | .Timeout => "call timed out"
  | .ProviderError => "provider error: upstream 5xx"
  | .InvalidResponse => "invalid response payload"

/-- Modelled from the spec: ExpertRunner.run. Builds the prompt, invokes the
model with the retry policy, and converts any ModelInvoker failure into an
ExpertResult with outcome failed and a reason rather than letting it
escape; exactly one ExpertResult is produced per invocation. Returns the
result together with the advanced global call counter. -/
def ExpertRunner.run (policy : RetryPolicy) (budget : Nat) (persona : PersonaConfig)
    (task : String) (mode : ExecutionMode) (priorOutputs : List ExpertResult)
    (stub : InvokerStub) (callIdx : Nat) : ExpertResult × Nat :=
  let _request := (buildSystemPrompt budget persona mode priorOutputs, task)
  let inv := ModelInvoker.invoke policy stub callIdx
  match inv.result with
  | .ok s =>
      ({ personaId := persona.id, output := s.text, outcome := .ok,
         usageTokens := s.usageTokens, costUsd := s.costUsd,
         durationMs := inv.totalDelayMs }, callIdx + inv.callsMade)
  | .error e =>
      ({ personaId := persona.id, output := "", outcome := .failed (errorReason e),
         usageTokens := 0, costUsd := 0,
         durationMs := inv.totalDelayMs }, callIdx + inv.callsMade)

/-- Modelled from the spec: run level status of a RunState. -/
inductive RunStatus where
  | running
  | completed
  | partialFailure
  | failed
deriving DecidableEq, Repr

/-- Modelled from the spec: terminal status from the settled results of a
run. Completed when every persona produced a successful ExpertResult,
PartialFailure on at least one success and at least one failure, Failed on
zero successful results. -/
def statusOf (results : List ExpertResult) : RunStatus :=
  if results.any (fun r => r.isOk) then
    (if results.all (fun r => r.isOk) then .completed else .partialFailure)
  else .failed

/-- Modelled from the spec: caller supplied limits of a run: per call
timeout, max concurrency, retry backoff configuration, debate round count
and the context character budget. -/
structure Limits where
  timeoutMs : Nat
  maxConcurrency : Nat
  baseDelayMs : Nat
  capMs : Nat
  rounds : Nat
  contextBudget : Nat
deriving DecidableEq, Repr

/-- Modelled from the spec: RunState, the aggregate state of one
orchestration run; for debate the per round ExpertResult history is
retained and results aggregates every round. -/
structure RunState where
  task : String
  mode : ExecutionMode
  personas : List PersonaConfig
  results : List ExpertResult
  roundHistory : List (List ExpertResult)
  status : RunStatus
deriving DecidableEq, Repr

/-- Trace record of one ExpertRunner invocation started by the
orchestrator: the debate round it belongs to, the position of the persona
in the ordered council, the prior outputs passed as prompt context and the
system prompt built from them. The trace lists invocations in start
order. -/
structure InvocationEvent where
  round : Nat
  personaIdx : Nat
  priors : List ExpertResult
  prompt : String
deriving DecidableEq, Repr

/-- Result of ExecutionOrchestrator.run: the settled RunState, the ordered
invocation trace and the advanced global call counter. -/
structure OrchestratorOutput where
  state : RunState
  trace : List InvocationEvent
  nextCall : Nat
deriving DecidableEq, Repr

/-- Modelled from the spec: the fan out used by separated and synthesis
modes and by a single debate round; every persona is invoked with the same
prior outputs, and the orchestrator waits for all to settle. Single
threaded cooperative scheduling makes the fan out a sequence of
invocations, bounded concurrency only limits how many are in flight. -/
def runAll (policy : RetryPolicy) (budget : Nat) (task : String) (mode : ExecutionMode)
    (priors : List ExpertResult) (round : Nat) (stub : InvokerStub) :
    List PersonaConfig → Nat → Nat → List ExpertResult × List InvocationEvent × Nat
  | [], _, c => ([], [], c)
  | p :: rest, idx, c =>
      let step := ExpertRunner.run policy budget p task mode priors stub c
      let restOut := runAll policy budget task mode priors round stub rest (idx + 1) step.2
      (step.1 :: restOut.1,
        ⟨round, idx, priors, buildSystemPrompt budget p mode priors⟩ :: restOut.2.1,
        restOut.2.2)

/-- Modelled from the spec: the strictly sequential pipeline chain; each
persona receives all previously settled ExpertResults as prompt context, a
predecessor failure is recorded in that context and the chain continues. -/
def pipelineLoop (policy : RetryPolicy) (budget : Nat) (task : String) (stub : InvokerStub) :
    List PersonaConfig → List ExpertResult → Nat → Nat →
      List ExpertResult × List InvocationEvent × Nat
  | [], _, _, c => ([], [], c)
  | p :: rest, acc, idx, c =>
      let step := ExpertRunner.run policy budget p task .pipeline acc stub c
      let restOut := pipelineLoop policy budget task stub rest (acc ++ [step.1]) (idx + 1) step.2
      (step.1 :: restOut.1,
        ⟨0, idx, acc, buildSystemPrompt budget p .pipeline acc⟩ :: restOut.2.1,
        restOut.2.2)

/-- Modelled from the spec: the debate round loop; the configured number of
rounds is executed, each round fans out over all personas with the full
previous round results as prompt context, and the next round starts only
after the whole round settled. Arguments after the stub: rounds still to
run, previous round results, current round index, call counter. -/
def debateLoop (policy : RetryPolicy) (budget : Nat) (task : String)
    (personas : List PersonaConfig) (stub : InvokerStub) :
    Nat → List ExpertResult → Nat → Nat →
      List (List ExpertResult) × List InvocationEvent × Nat
  | 0, _, _, c => ([], [], c)
  | n + 1, prev, round, c =>
      let roundOut := runAll policy budget task .debate prev round stub personas 0 c
      let restOut := debateLoop policy budget task personas stub n roundOut.1 (round + 1) roundOut.2.2
      (roundOut.1 :: restOut.1, roundOut.2.1 ++ restOut.2.1, restOut.2.2)

/-- Modelled from the spec: ExecutionOrchestrator.run; decides the
ordering pattern from the mode, drives ExpertRunner, aggregates partial
failures into the run level status. -/
def ExecutionOrchestrator.run (task : String) (personas : List PersonaConfig)
    (mode : ExecutionMode) (limits : Limits) (stub : InvokerStub) (c : Nat) :
    OrchestratorOutput :=
  let policy := defaultPolicy limits.baseDelayMs limits.capMs
  match mode with
  | .separated =>
      let out := runAll policy limits.contextBudget task .separated [] 0 stub personas 0 c
      ⟨⟨task, mode, personas, out.1, [out.1], statusOf out.1⟩, out.2.1, out.2.2⟩
  | .synthesis =>
      let out := runAll policy limits.contextBudget task .synthesis [] 0 stub personas 0 c
      ⟨⟨task, mode, personas, out.1, [out.1], statusOf out.1⟩, out.2.1, out.2.2⟩
  | .pipeline =>
      let out := pipelineLoop policy limits.contextBudget task stub personas [] 0 c
      ⟨⟨task, mode, personas, out.1, [out.1], statusOf out.1⟩, out.2.1, out.2.2⟩
  | .debate =>
      let out := debateLoop policy limits.contextBudget task personas stub limits.rounds [] 0 c
      ⟨⟨task, mode, personas, out.1.flatten, out.1, statusOf out.1.flatten⟩, out.2.1, out.2.2⟩

/-- Modelled from the spec: SynthesisTier. -/
inductive SynthesisTier where
  | quick
  | balanced
  | deep
deriving DecidableEq, Repr

/-- Modelled from the spec: fixed parameters of a synthesis tier:
temperature, maximum output token budget and prompt template. -/
structure TierParams where
  temperature : ℚ
  maxTokens : Nat
  template : String
deriving DecidableEq, Repr

/-- Modelled from the spec: the three fixed tier strategies. -/
def tierParams : SynthesisTier → TierParams
  | .quick => ⟨(8 : ℚ) / 10, 1024,
      "Extract a fast consensus across all successful expert outputs."⟩
  | .balanced => ⟨(5 : ℚ) / 10, 2048,
      "Deduplicate repeated points across experts, then give a structured chain of thought verdict."⟩
  | .deep => ⟨(2 : ℚ) / 10, 4096,
      "First summarize all expert outputs into a structured intermediate, then refine it into a final verdict."⟩

/-- Modelled from the spec: typed errors of SynthesisEngine: rejection on a
run with zero successful results, or a failure of the synthesis model call
itself. -/
inductive SynthesisError where
  | SynthesisRejected
  | SynthesisCallFailed (kind : InvocationErrorKind)
deriving DecidableEq, Repr

/-- Modelled from the spec: SynthesisResult: verdict text, tier, model,
cost, and a reference back to the run it was derived from. -/
structure SynthesisResult where
  verdict : String
  tier : SynthesisTier
  model : String
  costUsd : ℚ
  sourceTask : String
  sourceResults : List ExpertResult
deriving DecidableEq, Repr

/-- Model identifier used for synthesis calls, a configuration value. -/
def synthesisModelId : String := "synthesis-model"

/-- Modelled from the spec: SynthesisEngine.synthesize. Rejects with the
typed SynthesisRejected error when the run state holds zero successful
ExpertResults; quick and balanced are one model call, deep chains two model
calls with the first pass output feeding the second. Returns the typed
result and the advanced call counter. -/
def SynthesisEngine.synthesize (runState : RunState) (tier : SynthesisTier)
    (stub : InvokerStub) (c : Nat) : Except SynthesisError SynthesisResult × Nat :=
  let oks := runState.results.filter (fun r => r.isOk)
  if oks.isEmpty then (.error .SynthesisRejected, c)
  else
    match tier with
    | .deep =>
        match stub c with
        | .error e => (.error (.SynthesisCallFailed e), c + 1)
        | .ok s1 =>
            match stub (c + 1) with
            | .error e => (.error (.SynthesisCallFailed e), c + 2)
            | .ok s2 =>
                (.ok ⟨s2.text, .deep, synthesisModelId, s1.costUsd + s2.costUsd,
                  runState.task, oks⟩, c + 2)
    | .quick =>
        match stub c with
        | .error e => (.error (.SynthesisCallFailed e), c + 1)
        | .ok s =>
            (.ok ⟨s.text, .quick, synthesisModelId, s.costUsd, runState.task, oks⟩, c + 1)
    | .balanced =>
        match stub c with
        | .error e => (.error (.SynthesisCallFailed e), c + 1)
        | .ok s =>
            (.ok ⟨s.text, .balanced, synthesisModelId, s.costUsd, runState.task, oks⟩, c + 1)

/-- Result of one full facade run: the settled RunState, the synthesis
outcome when synthesis was attempted, how many times synthesize was
invoked, and the invocation trace. -/
structure FacadeOutput where
  runState : RunState
  synthesis : Option (Except SynthesisError SynthesisResult)
  synthesisCalls : Nat
  trace : List InvocationEvent
deriving DecidableEq, Repr

/-- Modelled from the spec: PipelineFacade.execute; runs the orchestrator,
then calls SynthesisEngine.synthesize only when the resulting RunState is
Completed or PartialFailure; when Failed, synthesis is skipped and the
failed RunState is returned with no SynthesisResult. -/
def PipelineFacade.execute (task : String) (personas : List PersonaConfig)
    (mode : ExecutionMode) (tier : SynthesisTier) (limits : Limits)
    (stub : InvokerStub) : FacadeOutput :=
  let orch := ExecutionOrchestrator.run task personas mode limits stub 0
  match orch.state.status with
  | .failed => ⟨orch.state, none, 0, orch.trace⟩
  | _ =>
      let syn := SynthesisEngine.synthesize orch.state tier stub orch.nextCall
      ⟨orch.state, some syn.1, 1, orch.trace⟩

end Council

/-! ## Part 5: concrete fixtures used to instantiate the theorems -/

namespace Fixtures

open Council

/-- Stub provider on which every call fails with an upstream 5xx. -/
def stubFail : InvokerStub := fun _ => .error .ProviderError

/-- Stub provider on which every call succeeds with a fixed payload. -/
def stubOk : InvokerStub := fun _ => .ok ⟨"stub output", 10, 0⟩

/-- Stub provider that is rate limited on call 0 and succeeds from call 1
on. -/
def stubRetry : InvokerStub := fun n =>
  if n = 0 then .error .RateLimited else .ok ⟨"recovered", 5, 0⟩

/-- Stub provider on which exactly call 1 fails with a non retryable auth
error; in the three persona pipeline fixture this makes the second persona
fail while the first and third succeed. -/
def stubSecondFails : InvokerStub := fun n =>
  if n = 1 then .error .AuthError else .ok ⟨"text " ++ toString n, 1, 0⟩

/-- First fixture persona. -/
def personaA : PersonaConfig :=
  { id := "a", name := "Alpha", model := "m1", persona := "You are expert A.",
    hasWebSearch := false, modeBehavior := none }

/-- Second fixture persona. -/
def personaB : PersonaConfig :=
  { id := "b", name := "Beta", model := "m2", persona := "You are expert B.",
    hasWebSearch := false, modeBehavior := none }

/-- Third fixture persona. -/
def personaC : PersonaConfig :=
  { id := "c", name := "Gamma", model := "m3", persona := "You are expert C.",
    hasWebSearch := false, modeBehavior := none }

/-- Fixture limits: two debate rounds, a small backoff configuration. -/
def limitsW : Limits :=
  { timeoutMs := 30000, maxConcurrency := 3, baseDelayMs := 100, capMs := 1000,
    rounds := 2, contextBudget := 4000 }

/-- Fixture expert result that failed. -/
def failedResult : ExpertResult :=
  { personaId := "a", output := "", outcome := .failed "call timed out",
    usageTokens := 0, costUsd := 0, durationMs := 0 }

/-- Fixture run state holding zero successful expert results. -/
def runStateNoSuccess : RunState :=
  { task := "t", mode := .synthesis, personas := [personaA],
    results := [failedResult], roundHistory := [[failedResult]],
    status := .failed }

/-- Fixture plugin. -/
def pluginP : Plugins.ExpertPlugin :=
  { id := "core-ai-expert", name := "Core AI Expert",
    description := "Standard LLM expert.", icon := some "Brain", payload := 0 }

/-- Fixture plugin sharing the id of pluginP. -/
def pluginQ : Plugins.ExpertPlugin :=
  { id := "core-ai-expert", name := "Core AI Expert v2",
    description := "Replacement expert.", icon := none, payload := 1 }

/-- Fixture feature metrics. -/
def metricsW : Features.FeatureMetrics :=
  { lastRun := none, nextRun := none, successRate := 1, totalRuns := 4,
    reportsGenerated := 2, averageExecutionTime := 10, lastError := none }

/-- Fixture feature definition. -/
def featureW : Features.FeatureDefinition :=
  { id := "scout", name := "Scout", category := "github",
    description := "GitHub scanning", icon := "radar", enabled := true,
    status := Features.FeatureStatus.running, metrics := metricsW }

/-- Fixture active execution for featureW. -/
def activeW : Features.ActiveExecution :=
  { featureId := "scout", executionId := "exec-1", startTime := 0,
    progress := 50, currentPhase := "Scanning" }

/-- Fixture store state holding featureW and one active execution. -/
def stateW : Features.FeaturesState :=
  { features := [featureW], activeExecutions := [activeW], executionHistory := [] }

/-- Fixture execution result completing exec-1 for featureW. -/
def resultW : Features.ExecutionResult :=
  { featureId := "scout", executionId := "exec-1",
    status := Features.ExecStatus.success, report := some ⟨"report-1"⟩,
    error := none, executionTime := 12, timestamp := 1000 }

/-- Fixture execution result whose featureId matches no stored feature. -/
def resultOrphan : Features.ExecutionResult :=
  { featureId := "unknown", executionId := "exec-2",
    status := Features.ExecStatus.failed, report := none,
    error := some "boom", executionTime := 3, timestamp := 2000 }

end Fixtures

/-! ## Part 6: helper lemmas about the retry loop -/

namespace Council

theorem invokeFrom_callsMade_lower (p : RetryPolicy) (stub : InvokerStub) (start : Nat) :
    ∀ r a d, a + 1 ≤ (invokeFrom p stub start r a d).callsMade := by
  intro r
  induction r with
  | zero =>
      intro a d
      cases h : stub (start + a) <;> simp [invokeFrom, h]
  | succ r ih =>
      intro a d
      cases h : stub (start + a) with
      | error e =>
          cases hr : retryable e with
          | true =>
              have := ih (a + 1) (d + backoffDelayMs p a)
              simp only [invokeFrom, h, hr, if_true]
              omega
          | false => simp [invokeFrom, h, hr]
      | ok v => simp [invokeFrom, h]

theorem invokeFrom_callsMade_upper (p : RetryPolicy) (stub : InvokerStub) (start : Nat) :
    ∀ r a d, (invokeFrom p stub start r a d).callsMade ≤ a + r + 1 := by
  intro r
  induction r with
  | zero =>
      intro a d
      cases h : stub (start + a) <;> simp [invokeFrom, h]
  | succ r ih =>
      intro a d
      cases h : stub (start + a) with
      | error e =>
          cases hr : retryable e with
          | true =>
              have := ih (a + 1) (d + backoffDelayMs p a)
              simp only [invokeFrom, h, hr, if_true]
              omega
          | false =>
              simp only [invokeFrom, h]
              rw [hr]
              simp
      | ok v =>
          simp only [invokeFrom, h]
          simp

theorem invokeFrom_retried_retryable (p : RetryPolicy) (stub : InvokerStub) (start : Nat) :
    ∀ r a d i, a ≤ i → i + 1 < (invokeFrom p stub start r a d).callsMade →
      ∃ e, stub (start + i) = Except.error e ∧ retryable e = true := by
  intro r
  induction r with
  | zero =>
      intro a d i hai hlt
      cases h : stub (start + a) <;> simp [invokeFrom, h] at hlt <;> omega
  | succ r ih =>
      intro a d i hai hlt
      cases h : stub (start + a) with
      | error e =>
          cases hr : retryable e with
          | true =>
              simp only [invokeFrom, h, hr, if_true] at hlt
              rcases Nat.eq_or_lt_of_le hai with heq | hgt
              · exact ⟨e, heq ▸ h, hr⟩
              · exact ih (a + 1) (d + backoffDelayMs p a) i hgt hlt
          | false =>
              simp [invokeFrom, h, hr] at hlt
              omega
      | ok v =>
          simp [invokeFrom, h] at hlt
          omega

theorem invokeFrom_delay (p : RetryPolicy) (stub : InvokerStub) (start : Nat) :
    ∀ r a d, (invokeFrom p stub start r a d).totalDelayMs =
      d + ∑ i ∈ Finset.Ico a ((invokeFrom p stub start r a d).callsMade - 1),
        backoffDelayMs p i := by
  intro r
  induction r with
  | zero =>
      intro a d
      cases h : stub (start + a) <;> simp [invokeFrom, h]
  | succ r ih =>
      intro a d
      cases h : stub (start + a) with
      | error e =>
          cases hr : retryable e with
          | true =>
              simp only [invokeFrom, h, hr, if_true]
              rw [ih (a + 1) (d + backoffDelayMs p a)]
              have hlow := invokeFrom_callsMade_lower p stub start r (a + 1)
                (d + backoffDelayMs p a)
              rw [Finset.sum_eq_sum_Ico_succ_bot
                (show a < (invokeFrom p stub start r (a + 1)
                  (d + backoffDelayMs p a)).callsMade - 1 by omega)
                (backoffDelayMs p)]
              omega
          | false => simp [invokeFrom, h, hr]
      | ok v => simp [invokeFrom, h]

theorem invokeFrom_ok (p : RetryPolicy) (stub : InvokerStub) (start : Nat)
    (r a d : Nat) (v : ModelSuccess) (h : stub (start + a) = Except.ok v) :
    invokeFrom p stub start r a d = ⟨Except.ok v, a + 1, d⟩ := by
  cases r <;> simp [invokeFrom, h]

theorem invokeFrom_error_result (p : RetryPolicy) (stub : InvokerStub) (start : Nat)
    (hstub : ∀ n, ∃ e, stub n = Except.error e) :
    ∀ r a d, ∃ e, (invokeFrom p stub start r a d).result = Except.error e := by
  intro r
  induction r with
  | zero =>
      intro a d
      obtain ⟨e, he⟩ := hstub (start + a)
      exact ⟨e, by simp [invokeFrom, he]⟩
  | succ r ih =>
      intro a d
      obtain ⟨e, he⟩ := hstub (start + a)
      by_cases hr : retryable e = true
      · simpa [invokeFrom, he, hr] using ih (a + 1) (d + backoffDelayMs p a)
      · exact ⟨e, by simp [invokeFrom, he, hr]⟩

theorem invoke_nonretryable (p : RetryPolicy) (stub : InvokerStub) (start : Nat)
    (e : InvocationErrorKind) (h : stub start = Except.error e)
    (hr : retryable e = false) :
    ModelInvoker.invoke p stub start = ⟨Except.error e, 1, 0⟩ := by
  unfold ModelInvoker.invoke
  cases p.maxRetries <;> simp [invokeFrom, h, hr]

theorem invoke_rateLimited_then_ok (base cap : Nat) (stub : InvokerStub) (start : Nat)
    (v : ModelSuccess) (h0 : stub start = Except.error InvocationErrorKind.RateLimited)
    (h1 : stub (start + 1) = Except.ok v) :
    ModelInvoker.invoke (defaultPolicy base cap) stub start =
      ⟨Except.ok v, 2, min base cap⟩ := by
  simp [ModelInvoker.invoke, defaultPolicy, invokeFrom, h0, h1, retryable, backoffDelayMs]

theorem run_eq_of_invoke_ok (policy : RetryPolicy) (budget : Nat) (persona : PersonaConfig)
    (task : String) (mode : ExecutionMode) (priors : List ExpertResult)
    (stub : InvokerStub) (c : Nat) (v : ModelSuccess)
    (h : (ModelInvoker.invoke policy stub c).result = Except.ok v) :
    ExpertRunner.run policy budget persona task mode priors stub c =
      ({ personaId := persona.id, output := v.text, outcome := .ok,
         usageTokens := v.usageTokens, costUsd := v.costUsd,
         durationMs := (ModelInvoker.invoke policy stub c).totalDelayMs },
       c + (ModelInvoker.invoke policy stub c).callsMade) := by
  simp [ExpertRunner.run, h]

theorem run_eq_of_invoke_error (policy : RetryPolicy) (budget : Nat) (persona : PersonaConfig)
    (task : String) (mode : ExecutionMode) (priors : List ExpertResult)
    (stub : InvokerStub) (c : Nat) (e : InvocationErrorKind)
    (h : (ModelInvoker.invoke policy stub c).result = Except.error e) :
    ExpertRunner.run policy budget persona task mode priors stub c =
      ({ personaId := persona.id, output := "", outcome := .failed (errorReason e),
         usageTokens := 0, costUsd := 0,
         durationMs := (ModelInvoker.invoke policy stub c).totalDelayMs },
       c + (ModelInvoker.invoke policy stub c).callsMade) := by
  simp [ExpertRunner.run, h]

theorem run_of_ok_stub (policy : RetryPolicy) (budget : Nat) (persona : PersonaConfig)
    (task : String) (mode : ExecutionMode) (priors : List ExpertResult)
    (stub : InvokerStub) (c : Nat) (v : ModelSuccess) (h : stub c = Except.ok v) :
    ExpertRunner.run policy budget persona task mode priors stub c =
      ({ personaId := persona.id, output := v.text, outcome := .ok,
         usageTokens := v.usageTokens, costUsd := v.costUsd, durationMs := 0 }, c + 1) := by
  have hrw := invokeFrom_ok policy stub c policy.maxRetries 0 0 v (by simpa using h)
  simp [ExpertRunner.run, ModelInvoker.invoke, hrw]

theorem run_failed_of_error_stub (policy : RetryPolicy) (budget : Nat)
    (persona : PersonaConfig) (task : String) (mode : ExecutionMode)
    (priors : List ExpertResult) (stub : InvokerStub) (c : Nat)
    (hstub : ∀ n, ∃ e, stub n = Except.error e) :
    ((ExpertRunner.run policy budget persona task mode priors stub c).1).isOk = false := by
  obtain ⟨e, he⟩ := invokeFrom_error_result policy stub c hstub policy.maxRetries 0 0
  rw [run_eq_of_invoke_error policy budget persona task mode priors stub c e he]
  simp [ExpertResult.isOk]

theorem run_ok_of_ok_stub (policy : RetryPolicy) (budget : Nat)
    (persona : PersonaConfig) (task : String) (mode : ExecutionMode)
    (priors : List ExpertResult) (stub : InvokerStub) (c : Nat)
    (hstub : ∀ n, ∃ v, stub n = Except.ok v) :
    ((ExpertRunner.run policy budget persona task mode priors stub c).1).outcome = Outcome.ok := by
  obtain ⟨v, hv⟩ := hstub c
  rw [run_of_ok_stub policy budget persona task mode priors stub c v hv]

theorem statusOf_failed {rs : List ExpertResult} (h : ∀ r ∈ rs, r.isOk = false) :
    statusOf rs = RunStatus.failed := by
  have hany : rs.any (fun r => r.isOk) = false := by
    rw [List.any_eq_false]
    intro r hr
    simp [h r hr]
  simp [statusOf, hany]

theorem statusOf_completed {rs : List ExpertResult} (hne : rs ≠ [])
    (h : ∀ r ∈ rs, r.isOk = true) : statusOf rs = RunStatus.completed := by
  obtain ⟨r0, hr0⟩ := List.exists_mem_of_ne_nil rs hne
  have hany : rs.any (fun r => r.isOk) = true :=
    List.any_eq_true.mpr ⟨r0, hr0, h r0 hr0⟩
  have hall : rs.all (fun r => r.isOk) = true :=
    List.all_eq_true.mpr fun r hr => h r hr
  simp [statusOf, hany, hall]

theorem pairwise_of_mem_rel {α : Type} {R : α → α → Prop} :
    ∀ l : List α, (∀ a ∈ l, ∀ b ∈ l, R a b) → l.Pairwise R := by
  intro l
  induction l with
  | nil => intro _; exact List.Pairwise.nil
  | cons x xs ih =>
      intro h
      refine List.Pairwise.cons ?_ (ih ?_)
      · intro b hb
        exact h x (by simp) b (by simp [hb])
      · intro a ha b hb
        exact h a (by simp [ha]) b (by simp [hb])

theorem runAll_results_length (policy : RetryPolicy) (budget : Nat) (task : String)
    (mode : ExecutionMode) (priors : List ExpertResult) (round : Nat) (stub : InvokerStub) :
    ∀ ps idx c,
      ((runAll policy budget task mode priors round stub ps idx c).1).length = ps.length := by
  intro ps
  induction ps with
  | nil => intro idx c; simp [runAll]
  | cons p rest ih => intro idx c; simp [runAll, ih]

theorem runAll_trace (policy : RetryPolicy) (budget : Nat) (task : String)
    (mode : ExecutionMode) (priors : List ExpertResult) (round : Nat) (stub : InvokerStub) :
    ∀ ps idx c,
      ((runAll policy budget task mode priors round stub ps idx c).2.1).length = ps.length ∧
      ∀ e ∈ (runAll policy budget task mode priors round stub ps idx c).2.1,
        e.round = round ∧ e.priors = priors := by
  intro ps
  induction ps with
  | nil => intro idx c; simp [runAll]
  | cons p rest ih =>
      intro idx c
      constructor
      · simp [runAll, (ih (idx + 1) _).1]
      · intro e he
        simp only [runAll, List.mem_cons] at he
        rcases he with he | he
        · simp [he]
        · exact (ih (idx + 1) _).2 e he

theorem runAll_all_failed (policy : RetryPolicy) (budget : Nat) (task : String)
    (mode : ExecutionMode) (priors : List ExpertResult) (round : Nat) (stub : InvokerStub)
    (hstub : ∀ n, ∃ e, stub n = Except.error e) :
    ∀ ps idx c, ∀ r ∈ (runAll policy budget task mode priors round stub ps idx c).1,
      r.isOk = false := by
  intro ps
  induction ps with
  | nil => intro idx c r hr; simp [runAll] at hr
  | cons p rest ih =>
      intro idx c r hr
      simp only [runAll, List.mem_cons] at hr
      rcases hr with hr | hr
      · rw [hr]
        exact run_failed_of_error_stub policy budget p task mode priors stub c hstub
      · exact ih (idx + 1) _ r hr

theorem runAll_all_ok (policy : RetryPolicy) (budget : Nat) (task : String)
    (mode : ExecutionMode) (priors : List ExpertResult) (round : Nat) (stub : InvokerStub)
    (hstub : ∀ n, ∃ v, stub n = Except.ok v) :
    ∀ ps idx c, ∀ r ∈ (runAll policy budget task mode priors round stub ps idx c).1,
      r.outcome = Outcome.ok := by
  intro ps
  induction ps with
  | nil => intro idx c r hr; simp [runAll] at hr
  | cons p rest ih =>
      intro idx c r hr
      simp only [runAll, List.mem_cons] at hr
      rcases hr with hr | hr
      · rw [hr]
        exact run_ok_of_ok_stub policy budget p task mode priors stub c hstub
      · exact ih (idx + 1) _ r hr

theorem pipelineLoop_results_length (policy : RetryPolicy) (budget : Nat) (task : String)
    (stub : InvokerStub) :
    ∀ ps acc idx c,
      ((pipelineLoop policy budget task stub ps acc idx c).1).length = ps.length := by
  intro ps
  induction ps with
  | nil => intro acc idx c; simp [pipelineLoop]
  | cons p rest ih => intro acc idx c; simp [pipelineLoop, ih]

theorem pipelineLoop_trace_length (policy : RetryPolicy) (budget : Nat) (task : String)
    (stub : InvokerStub) :
    ∀ ps acc idx c,
      ((pipelineLoop policy budget task stub ps acc idx c).2.1).length = ps.length := by
  intro ps
  induction ps with
  | nil => intro acc idx c; simp [pipelineLoop]
  | cons p rest ih => intro acc idx c; simp [pipelineLoop, ih]

theorem pipelineLoop_trace_get (policy : RetryPolicy) (budget : Nat) (task : String)
    (stub : InvokerStub) :
    ∀ ps acc idx c k (hk : k < ((pipelineLoop policy budget task stub ps acc idx c).2.1).length),
      (((pipelineLoop policy budget task stub ps acc idx c).2.1).get ⟨k, hk⟩).personaIdx
          = idx + k ∧
      (((pipelineLoop policy budget task stub ps acc idx c).2.1).get ⟨k, hk⟩).priors
          = acc ++ ((pipelineLoop policy budget task stub ps acc idx c).1).take k := by
  intro ps
  induction ps with
  | nil =>
      intro acc idx c k hk
      simp [pipelineLoop] at hk
  | cons p rest ih =>
      intro acc idx c k hk
      match k with
      | 0 => simp [pipelineLoop]
      | Nat.succ k' =>
          have hk' : k' < ((pipelineLoop policy budget task stub rest
              (acc ++ [(ExpertRunner.run policy budget p task .pipeline acc stub c).1])
              (idx + 1)
              (ExpertRunner.run policy budget p task .pipeline acc stub c).2).2.1).length := by
            have := pipelineLoop_trace_length policy budget task stub rest
              (acc ++ [(ExpertRunner.run policy budget p task .pipeline acc stub c).1])
              (idx + 1)
              (ExpertRunner.run policy budget p task .pipeline acc stub c).2
            have hlen := pipelineLoop_trace_length policy budget task stub (p :: rest) acc idx c
            simp only [List.length_cons] at hlen
            omega
          have hih := ih (acc ++ [(ExpertRunner.run policy budget p task .pipeline acc stub c).1])
            (idx + 1) (ExpertRunner.run policy budget p task .pipeline acc stub c).2 k' hk'
          constructor
          · have h1 := hih.1
            simp only [pipelineLoop, List.get_cons_succ]
            rw [h1]
            omega
          · have h2 := hih.2
            simp only [pipelineLoop, List.get_cons_succ]
            rw [h2]
            simp [List.take_succ_cons, List.append_assoc]

theorem pipelineLoop_all_failed (policy : RetryPolicy) (budget : Nat) (task : String)
    (stub : InvokerStub) (hstub : ∀ n, ∃ e, stub n = Except.error e) :
    ∀ ps acc idx c, ∀ r ∈ (pipelineLoop policy budget task stub ps acc idx c).1,
      r.isOk = false := by
  intro ps
  induction ps with
  | nil => intro acc idx c r hr; simp [pipelineLoop] at hr
  | cons p rest ih =>
      intro acc idx c r hr
      simp only [pipelineLoop, List.mem_cons] at hr
      rcases hr with hr | hr
      · rw [hr]
        exact run_failed_of_error_stub policy budget p task .pipeline acc stub c hstub
      · exact ih _ (idx + 1) _ r hr

theorem debateLoop_hist_length (policy : RetryPolicy) (budget : Nat) (task : String)
    (personas : List PersonaConfig) (stub : InvokerStub) :
    ∀ n prev round c,
      ((debateLoop policy budget task personas stub n prev round c).1).length = n := by
  intro n
  induction n with
  | zero => intro prev round c; simp [debateLoop]
  | succ n ih => intro prev round c; simp [debateLoop, ih]

theorem debateLoop_hist_each_length (policy : RetryPolicy) (budget : Nat) (task : String)
    (personas : List PersonaConfig) (stub : InvokerStub) :
    ∀ n prev round c, ∀ rs ∈ (debateLoop policy budget task personas stub n prev round c).1,
      rs.length = personas.length := by
  intro n
  induction n with
  | zero => intro prev round c rs hrs; simp [debateLoop] at hrs
  | succ n ih =>
      intro prev round c rs hrs
      simp only [debateLoop, List.mem_cons] at hrs
      rcases hrs with hrs | hrs
      · rw [hrs]
        exact runAll_results_length policy budget task .debate prev round stub personas 0 c
      · exact ih _ (round + 1) _ rs hrs

theorem debateLoop_trace_length (policy : RetryPolicy) (budget : Nat) (task : String)
    (personas : List PersonaConfig) (stub : InvokerStub) :
    ∀ n prev round c,
      ((debateLoop policy budget task personas stub n prev round c).2.1).length
        = n * personas.length := by
  intro n
  induction n with
  | zero => intro prev round c; simp [debateLoop]
  | succ n ih =>
      intro prev round c
      simp only [debateLoop, List.length_append]
      rw [(runAll_trace policy budget task .debate prev round stub personas 0 c).1,
        ih _ (round + 1) _]
      rw [Nat.succ_mul]
      omega

theorem debateLoop_round_bounds (policy : RetryPolicy) (budget : Nat) (task : String)
    (personas : List PersonaConfig) (stub : InvokerStub) :
    ∀ n prev round c, ∀ e ∈ (debateLoop policy budget task personas stub n prev round c).2.1,
      round ≤ e.round ∧ e.round < round + n := by
  intro n
  induction n with
  | zero => intro prev round c e he; simp [debateLoop] at he
  | succ n ih =>
      intro prev round c e he
      simp only [debateLoop, List.mem_append] at he
      rcases he with he | he
      · have := ((runAll_trace policy budget task .debate prev round stub personas 0 c).2 e he).1
        omega
      · have := ih _ (round + 1) _ e he
        omega

theorem debateLoop_all_failed (policy : RetryPolicy) (budget : Nat) (task : String)
    (personas : List PersonaConfig) (stub : InvokerStub)
    (hstub : ∀ n, ∃ e, stub n = Except.error e) :
    ∀ n prev round c, ∀ rs ∈ (debateLoop policy budget task personas stub n prev round c).1,
      ∀ r ∈ rs, r.isOk = false := by
  intro n
  induction n with
  | zero => intro prev round c rs hrs; simp [debateLoop] at hrs
  | succ n ih =>
      intro prev round c rs hrs
      simp only [debateLoop, List.mem_cons] at hrs
      rcases hrs with hrs | hrs
      · intro r hr
        rw [hrs] at hr
        exact runAll_all_failed policy budget task .debate prev round stub hstub personas 0 c r hr
      · exact ih _ (round + 1) _ rs hrs

theorem debateLoop_priors (policy : RetryPolicy) (budget : Nat) (task : String)
    (personas : List PersonaConfig) (stub : InvokerStub) :
    ∀ n prev round c, ∀ e ∈ (debateLoop policy budget task personas stub n prev round c).2.1,
      (e.round = round → e.priors = prev) ∧
      (∀ j, e.round = round + j + 1 →
        ∃ hjl : j < ((debateLoop policy budget task personas stub n prev round c).1).length,
          e.priors = ((debateLoop policy budget task personas stub n prev round c).1).get
            ⟨j, hjl⟩) := by
  intro n
  induction n with
  | zero => intro prev round c e he; simp [debateLoop] at he
  | succ n ih =>
      intro prev round c e he
      simp only [debateLoop, List.mem_append] at he ⊢
      rcases he with he | he
      · have htr := (runAll_trace policy budget task .debate prev round stub personas 0 c).2 e he
        refine ⟨fun _ => htr.2, fun j hj => ?_⟩
        exact absurd hj (by omega)
      · have hb := debateLoop_round_bounds policy budget task personas stub n
          (runAll policy budget task .debate prev round stub personas 0 c).1 (round + 1)
          (runAll policy budget task .debate prev round stub personas 0 c).2.2 e he
        have hih := ih (runAll policy budget task .debate prev round stub personas 0 c).1
          (round + 1) (runAll policy budget task .debate prev round stub personas 0 c).2.2 e he
        refine ⟨fun h0 => absurd h0 (by omega), fun j hj => ?_⟩
        cases j with
        | zero =>
            have hpr := hih.1 (by omega)
            exact ⟨by simp, by rw [hpr]; simp⟩
        | succ j' =>
            obtain ⟨hjl, hpr⟩ := hih.2 j' (by omega)
            refine ⟨by simp; omega, ?_⟩
            rw [hpr]
            simp [List.get_cons_succ]

theorem debateLoop_sorted (policy : RetryPolicy) (budget : Nat) (task : String)
    (personas : List PersonaConfig) (stub : InvokerStub) :
    ∀ n prev round c,
      ((debateLoop policy budget task personas stub n prev round c).2.1).Pairwise
        (fun a b => a.round ≤ b.round) := by
  intro n
  induction n with
  | zero => intro prev round c; simp [debateLoop]
  | succ n ih =>
      intro prev round c
      simp only [debateLoop]
      rw [List.pairwise_append]
      refine ⟨?_, ih _ (round + 1) _, ?_⟩
      · apply pairwise_of_mem_rel
        intro a ha b hb
        have h1 := ((runAll_trace policy budget task .debate prev round stub personas 0 c).2 a ha).1
        have h2 := ((runAll_trace policy budget task .debate prev round stub personas 0 c).2 b hb).1
        omega
      · intro a ha b hb
        have h1 := ((runAll_trace policy budget task .debate prev round stub personas 0 c).2 a ha).1
        have h2 := (debateLoop_round_bounds policy budget task personas stub n
          (runAll policy budget task .debate prev round stub personas 0 c).1 (round + 1)
          (runAll policy budget task .debate prev round stub personas 0 c).2.2 b hb).1
        omega

theorem debateLoop_round_count (policy : RetryPolicy) (budget : Nat) (task : String)
    (personas : List PersonaConfig) (stub : InvokerStub) :
    ∀ n prev round c j, j < n →
      (((debateLoop policy budget task personas stub n prev round c).2.1).filter
        (fun e => e.round == round + j)).length = personas.length := by
  intro n
  induction n with
  | zero => intro prev round c j hj; omega
  | succ n ih =>
      intro prev round c j hj
      simp only [debateLoop, List.filter_append, List.length_append]
      cases j with
      | zero =>
          have hblock : ((runAll policy budget task .debate prev round stub personas 0 c).2.1).filter
              (fun e => e.round == round + 0) =
              (runAll policy budget task .debate prev round stub personas 0 c).2.1 := by
            apply List.filter_eq_self.mpr
            intro e he
            have := ((runAll_trace policy budget task .debate prev round stub personas 0 c).2 e he).1
            simp [this]
          have hrest : ((debateLoop policy budget task personas stub n
              (runAll policy budget task .debate prev round stub personas 0 c).1 (round + 1)
              (runAll policy budget task .debate prev round stub personas 0 c).2.2).2.1).filter
              (fun e => e.round == round + 0) = [] := by
            apply List.filter_eq_nil_iff.mpr
            intro e he
            have := (debateLoop_round_bounds policy budget task personas stub n
              (runAll policy budget task .debate prev round stub personas 0 c).1 (round + 1)
              (runAll policy budget task .debate prev round stub personas 0 c).2.2 e he).1
            simp only [beq_iff_eq]
            omega
          rw [hblock, hrest]
          simp [(runAll_trace policy budget task .debate prev round stub personas 0 c).1]
      | succ j' =>
          have hblock : ((runAll policy budget task .debate prev round stub personas 0 c).2.1).filter
              (fun e => e.round == round + (j' + 1)) = [] := by
            apply List.filter_eq_nil_iff.mpr
            intro e he
            have := ((runAll_trace policy budget task .debate prev round stub personas 0 c).2 e he).1
            simp only [beq_iff_eq]
            omega
          rw [hblock]
          have harith : round + (j' + 1) = (round + 1) + j' := by omega
          rw [harith, ih _ (round + 1) _ j' (by omega)]
          simp

theorem orchestrator_all_failed (task : String) (personas : List PersonaConfig)
    (mode : ExecutionMode) (limits : Limits) (stub : InvokerStub) (c : Nat)
    (hstub : ∀ n, ∃ e, stub n = Except.error e) :
    (∀ r ∈ (ExecutionOrchestrator.run task personas mode limits stub c).state.results,
      r.isOk = false) ∧
    (ExecutionOrchestrator.run task personas mode limits stub c).state.status
      = RunStatus.failed := by
  have hmem : ∀ r ∈ (ExecutionOrchestrator.run task personas mode limits stub c).state.results,
      r.isOk = false := by
    cases mode with
    | separated =>
        intro r hr
        simp only [ExecutionOrchestrator.run] at hr
        exact runAll_all_failed _ _ task .separated [] 0 stub hstub personas 0 c r hr
    | synthesis =>
        intro r hr
        simp only [ExecutionOrchestrator.run] at hr
        exact runAll_all_failed _ _ task .synthesis [] 0 stub hstub personas 0 c r hr
    | pipeline =>
        intro r hr
        simp only [ExecutionOrchestrator.run] at hr
        exact pipelineLoop_all_failed _ _ task stub hstub personas [] 0 c r hr
    | debate =>
        intro r hr
        simp only [ExecutionOrchestrator.run] at hr
        obtain ⟨rs, hrs, hrmem⟩ := List.mem_flatten.mp hr
        exact debateLoop_all_failed _ _ task personas stub hstub limits.rounds [] 0 c rs hrs r hrmem
  refine ⟨hmem, ?_⟩
  cases mode <;>
    simp only [ExecutionOrchestrator.run] <;>
    apply statusOf_failed <;>
    intro r hr <;>
    apply hmem r <;>
    simp only [ExecutionOrchestrator.run] <;>
    exact hr

theorem take_two_eq {α : Type} (l : List α) (h1 : 1 < l.length) :
    l.take 2 = [l.get ⟨0, by omega⟩, l.get ⟨1, h1⟩] := by
  match l with
  | a :: b :: tl => simp

end Council

/-! ## Part 7: the claims -/

section Claims

open Council

/-- C2: for every RunState containing zero successful ExpertResults and
every tier, SynthesisEngine.synthesize returns the typed SynthesisRejected
error; being a total function it never throws, and it never produces a
SynthesisResult. -/
theorem c2_synthesize_rejected (runState : RunState) (tier : SynthesisTier)
    (stub : InvokerStub) (c : Nat) (h : ∀ r ∈ runState.results, r.isOk = false) :
    SynthesisEngine.synthesize runState tier stub c =
      (Except.error SynthesisError.SynthesisRejected, c) := by
  have hfilter : runState.results.filter (fun r => r.isOk) = [] :=
    List.filter_eq_nil_iff.mpr (fun r hr => by simp [h r hr])
  simp [SynthesisEngine.synthesize, hfilter]

/-- Witness for C2 at a concrete run state with one failed result. -/
theorem c2_witness :
    SynthesisEngine.synthesize Fixtures.runStateNoSuccess SynthesisTier.quick
      Fixtures.stubFail 0 = (Except.error SynthesisError.SynthesisRejected, 0) :=
  c2_synthesize_rejected Fixtures.runStateNoSuccess SynthesisTier.quick
    Fixtures.stubFail 0 (by decide)

/-- C3: when every ModelInvoker call fails, for every task, persona list,
mode and tier, the run settles as Failed, PipelineFacade.execute never
invokes SynthesisEngine.synthesize, and the facade returns the failed
RunState with no SynthesisResult. -/
theorem c3_all_calls_fail (task : String) (personas : List PersonaConfig)
    (mode : ExecutionMode) (tier : SynthesisTier) (limits : Limits)
    (stub : InvokerStub) (hstub : ∀ n, ∃ e, stub n = Except.error e) :
    (PipelineFacade.execute task personas mode tier limits stub).runState.status
        = RunStatus.failed ∧
    (PipelineFacade.execute task personas mode tier limits stub).synthesis = none ∧
    (PipelineFacade.execute task personas mode tier limits stub).synthesisCalls = 0 := by
  have h := orchestrator_all_failed task personas mode limits stub 0 hstub
  simp [PipelineFacade.execute, h.2]

/-- Witness for C3 at a concrete always failing stub. -/
theorem c3_witness :
    (PipelineFacade.execute "t" [Fixtures.personaA] ExecutionMode.synthesis
        SynthesisTier.quick Fixtures.limitsW Fixtures.stubFail).runState.status
      = RunStatus.failed ∧
    (PipelineFacade.execute "t" [Fixtures.personaA] ExecutionMode.synthesis
        SynthesisTier.quick Fixtures.limitsW Fixtures.stubFail).synthesis = none :=
  have h := c3_all_calls_fail "t" [Fixtures.personaA] ExecutionMode.synthesis
    SynthesisTier.quick Fixtures.limitsW Fixtures.stubFail
    (fun _ => ⟨InvocationErrorKind.ProviderError, rfl⟩)
  ⟨h.1, h.2.1⟩

/-- C6: for every synthesis mode input on which all ModelInvoker calls
succeed and at least one persona is configured, the run completes with one
ok ExpertResult per persona. -/
theorem c6_all_ok_completed (task : String) (personas : List PersonaConfig)
    (limits : Limits) (stub : InvokerStub) (hne : personas ≠ [])
    (hstub : ∀ n, ∃ v, stub n = Except.ok v) :
    (ExecutionOrchestrator.run task personas ExecutionMode.synthesis limits stub 0).state.status
        = RunStatus.completed ∧
    (ExecutionOrchestrator.run task personas ExecutionMode.synthesis limits stub 0).state.results.length
        = personas.length ∧
    ∀ r ∈ (ExecutionOrchestrator.run task personas ExecutionMode.synthesis limits stub 0).state.results,
      r.outcome = Outcome.ok := by
  have hok : ∀ r ∈ (runAll (defaultPolicy limits.baseDelayMs limits.capMs) limits.contextBudget
      task .synthesis [] 0 stub personas 0 0).1, r.outcome = Outcome.ok :=
    runAll_all_ok _ _ task .synthesis [] 0 stub hstub personas 0 0
  have hlen : ((runAll (defaultPolicy limits.baseDelayMs limits.capMs) limits.contextBudget
      task .synthesis [] 0 stub personas 0 0).1).length = personas.length :=
    runAll_results_length _ _ task .synthesis [] 0 stub personas 0 0
  have hres_ne : (runAll (defaultPolicy limits.baseDelayMs limits.capMs) limits.contextBudget
      task .synthesis [] 0 stub personas 0 0).1 ≠ [] := by
    intro hnil
    rw [hnil] at hlen
    exact hne (List.length_eq_zero.mp hlen.symm)
  refine ⟨?_, ?_, ?_⟩
  · simp only [ExecutionOrchestrator.run]
    exact statusOf_completed hres_ne (fun r hr => by simp [ExpertResult.isOk, hok r hr])
  · simp only [ExecutionOrchestrator.run]
    exact hlen
  · intro r hr
    simp only [ExecutionOrchestrator.run] at hr
    exact hok r hr

/-- Witness for C6 at two personas and an always succeeding stub. -/
theorem c6_witness :
    (ExecutionOrchestrator.run "t" [Fixtures.personaA, Fixtures.personaB]
        ExecutionMode.synthesis Fixtures.limitsW Fixtures.stubOk 0).state.status
      = RunStatus.completed ∧
    (ExecutionOrchestrator.run "t" [Fixtures.personaA, Fixtures.personaB]
        ExecutionMode.synthesis Fixtures.limitsW Fixtures.stubOk 0).state.results.length = 2 :=
  have h := c6_all_ok_completed "t" [Fixtures.personaA, Fixtures.personaB]
    Fixtures.limitsW Fixtures.stubOk (by simp)
    (fun _ => ⟨⟨"stub output", 10, 0⟩, rfl⟩)
  ⟨h.1, h.2.1⟩

/-- C4: in pipeline mode the chain is strictly sequential and never halted
by a predecessor failure: one result and one trace entry per persona, the
kth invocation is persona k and its prompt context is exactly the list of
the k settled predecessor results, and the rendered context devotes one
explicit line to every predecessor, failed ones included; in particular
with three personas where the second fails, the third still executes and
its context keeps the first persona output and the failed second result. -/
theorem c4_pipeline (task : String) (personas : List PersonaConfig)
    (limits : Limits) (stub : InvokerStub) :
    ((ExecutionOrchestrator.run task personas ExecutionMode.pipeline limits stub 0).state.results.length
        = personas.length) ∧
    ((ExecutionOrchestrator.run task personas ExecutionMode.pipeline limits stub 0).trace.length
        = personas.length) ∧
    (∀ k (hk : k < (ExecutionOrchestrator.run task personas ExecutionMode.pipeline limits stub 0).trace.length),
      (((ExecutionOrchestrator.run task personas ExecutionMode.pipeline limits stub 0).trace.get
          ⟨k, hk⟩).personaIdx = k) ∧
      (((ExecutionOrchestrator.run task personas ExecutionMode.pipeline limits stub 0).trace.get
          ⟨k, hk⟩).priors =
        (ExecutionOrchestrator.run task personas ExecutionMode.pipeline limits stub 0).state.results.take k)) ∧
    (∀ k (hk : k < (ExecutionOrchestrator.run task personas ExecutionMode.pipeline limits stub 0).trace.length),
      (renderContextLines (((ExecutionOrchestrator.run task personas ExecutionMode.pipeline limits stub 0).trace.get
          ⟨k, hk⟩).priors)).length =
        (((ExecutionOrchestrator.run task personas ExecutionMode.pipeline limits stub 0).trace.get
          ⟨k, hk⟩).priors).length) ∧
    (∀ (hk : 2 < (ExecutionOrchestrator.run task personas ExecutionMode.pipeline limits stub 0).trace.length)
       (h0 : 0 < (ExecutionOrchestrator.run task personas ExecutionMode.pipeline limits stub 0).state.results.length)
       (h1 : 1 < (ExecutionOrchestrator.run task personas ExecutionMode.pipeline limits stub 0).state.results.length),
      ((ExecutionOrchestrator.run task personas ExecutionMode.pipeline limits stub 0).state.results.get
          ⟨0, h0⟩).isOk = true →
      ((ExecutionOrchestrator.run task personas ExecutionMode.pipeline limits stub 0).state.results.get
          ⟨1, h1⟩).isOk = false →
      (((((ExecutionOrchestrator.run task personas ExecutionMode.pipeline limits stub 0).trace.get
            ⟨2, hk⟩).priors.filter (fun r => r.isOk)).map (fun r => r.output)) =
          [((ExecutionOrchestrator.run task personas ExecutionMode.pipeline limits stub 0).state.results.get
            ⟨0, h0⟩).output]) ∧
      (((ExecutionOrchestrator.run task personas ExecutionMode.pipeline limits stub 0).state.results.get
          ⟨1, h1⟩) ∈
        ((ExecutionOrchestrator.run task personas ExecutionMode.pipeline limits stub 0).trace.get
          ⟨2, hk⟩).priors)) := by
  simp only [ExecutionOrchestrator.run]
  refine ⟨pipelineLoop_results_length _ _ task stub personas [] 0 0,
    pipelineLoop_trace_length _ _ task stub personas [] 0 0, ?_, ?_, ?_⟩
  · intro k hk
    have h := pipelineLoop_trace_get _ _ task stub personas [] 0 0 k hk
    simpa using h
  · intro k hk
    simp [renderContextLines]
  · intro hk h0 h1 hok hfail
    have hC := pipelineLoop_trace_get _ _ task stub personas [] 0 0 2 hk
    have hpri := hC.2
    rw [List.nil_append] at hpri
    rw [hpri, take_two_eq _ h1]
    simp only [List.get_eq_getElem] at hok hfail ⊢
    constructor
    · simp [hok, hfail]
    · simp

/-- Witness for C4: three personas, the second invocation fails with an
auth error, the third persona still executes with the first output and the
recorded failed second result in its context. -/
theorem c4_witness :
    (((((ExecutionOrchestrator.run "t" [Fixtures.personaA, Fixtures.personaB, Fixtures.personaC]
          ExecutionMode.pipeline Fixtures.limitsW Fixtures.stubSecondFails 0).trace.get
          ⟨2, by decide⟩).priors.filter (fun r => r.isOk)).map (fun r => r.output)) =
        [((ExecutionOrchestrator.run "t" [Fixtures.personaA, Fixtures.personaB, Fixtures.personaC]
          ExecutionMode.pipeline Fixtures.limitsW Fixtures.stubSecondFails 0).state.results.get
          ⟨0, by decide⟩).output]) ∧
    (((ExecutionOrchestrator.run "t" [Fixtures.personaA, Fixtures.personaB, Fixtures.personaC]
          ExecutionMode.pipeline Fixtures.limitsW Fixtures.stubSecondFails 0).state.results.get
          ⟨1, by decide⟩) ∈
      ((ExecutionOrchestrator.run "t" [Fixtures.personaA, Fixtures.personaB, Fixtures.personaC]
          ExecutionMode.pipeline Fixtures.limitsW Fixtures.stubSecondFails 0).trace.get
          ⟨2, by decide⟩).priors) :=
  have h := c4_pipeline "t" [Fixtures.personaA, Fixtures.personaB, Fixtures.personaC]
    Fixtures.limitsW Fixtures.stubSecondFails
  h.2.2.2.2 (by decide) (by decide) (by decide) (by decide) (by decide)

/-- C5: in debate mode with N configured rounds, exactly N rounds of per
persona invocations occur, the trace is ordered by round so a later round
never starts before an earlier one finished, and each round j plus one
event carries as context precisely the full round j results, which contain
a result for every persona and hence the outputs of all personas that
succeeded in round j. -/
theorem c5_debate (task : String) (personas : List PersonaConfig)
    (limits : Limits) (stub : InvokerStub) :
    ((ExecutionOrchestrator.run task personas ExecutionMode.debate limits stub 0).state.roundHistory.length
        = limits.rounds) ∧
    (∀ rs ∈ (ExecutionOrchestrator.run task personas ExecutionMode.debate limits stub 0).state.roundHistory,
      rs.length = personas.length) ∧
    ((ExecutionOrchestrator.run task personas ExecutionMode.debate limits stub 0).trace.length
        = limits.rounds * personas.length) ∧
    ((ExecutionOrchestrator.run task personas ExecutionMode.debate limits stub 0).trace.Pairwise
        (fun a b => a.round ≤ b.round)) ∧
    (∀ j, j < limits.rounds →
      (((ExecutionOrchestrator.run task personas ExecutionMode.debate limits stub 0).trace.filter
        (fun e => e.round == j)).length = personas.length)) ∧
    (∀ e ∈ (ExecutionOrchestrator.run task personas ExecutionMode.debate limits stub 0).trace,
      (e.round = 0 → e.priors = []) ∧
      (∀ j, e.round = j + 1 →
        ∃ hj : j < (ExecutionOrchestrator.run task personas ExecutionMode.debate limits stub 0).state.roundHistory.length,
          e.priors = (ExecutionOrchestrator.run task personas ExecutionMode.debate limits stub 0).state.roundHistory.get
            ⟨j, hj⟩ ∧
          e.priors.length = personas.length ∧
          ∀ q ∈ (ExecutionOrchestrator.run task personas ExecutionMode.debate limits stub 0).state.roundHistory.get
              ⟨j, hj⟩, q.isOk = true → q ∈ e.priors)) := by
  simp only [ExecutionOrchestrator.run]
  refine ⟨debateLoop_hist_length _ _ task personas stub limits.rounds [] 0 0, ?_,
    debateLoop_trace_length _ _ task personas stub limits.rounds [] 0 0,
    debateLoop_sorted _ _ task personas stub limits.rounds [] 0 0, ?_, ?_⟩
  · intro rs hrs
    exact debateLoop_hist_each_length _ _ task personas stub limits.rounds [] 0 0 rs hrs
  · intro j hj
    have h := debateLoop_round_count (defaultPolicy limits.baseDelayMs limits.capMs)
      limits.contextBudget task personas stub limits.rounds [] 0 0 j hj
    simpa using h
  · intro e he
    have hp := debateLoop_priors (defaultPolicy limits.baseDelayMs limits.capMs)
      limits.contextBudget task personas stub limits.rounds [] 0 0 e he
    refine ⟨fun h0 => hp.1 h0, fun j hj => ?_⟩
    obtain ⟨hjl, hpr⟩ := hp.2 j (by omega)
    refine ⟨hjl, hpr, ?_, ?_⟩
    · rw [hpr]
      exact debateLoop_hist_each_length (defaultPolicy limits.baseDelayMs limits.capMs)
        limits.contextBudget task personas stub limits.rounds [] 0 0 _
        (List.get_mem _ _ _)
    · intro q hq _
      rw [hpr]
      exact hq

/-- Witness for C5: two personas, two rounds, all calls succeed; the trace
holds four events and the third event, opening round one, carries the two
round zero results as context. -/
theorem c5_witness :
    ((ExecutionOrchestrator.run "t" [Fixtures.personaA, Fixtures.personaB]
        ExecutionMode.debate Fixtures.limitsW Fixtures.stubOk 0).trace.length = 4) ∧
    (((ExecutionOrchestrator.run "t" [Fixtures.personaA, Fixtures.personaB]
        ExecutionMode.debate Fixtures.limitsW Fixtures.stubOk 0).trace.get
        ⟨2, by decide⟩).priors.length = 2) := by
  have h := c5_debate "t" [Fixtures.personaA, Fixtures.personaB]
    Fixtures.limitsW Fixtures.stubOk
  constructor
  · simpa using h.2.2.1
  · obtain ⟨hj, _, hlen, _⟩ :=
      (h.2.2.2.2.2 _ (List.get_mem _ 2 (by decide))).2 0 (by decide)
    simpa using hlen

/-- C7: ModelInvoker.invoke under the policy of at most 2 automatic retries
makes at most 3 physical calls, every retried attempt was a RateLimited,
Timeout or ProviderError failure, the accumulated delay is the sum of the
capped exponential backoff terms, a non retryable failure is surfaced
immediately with zero retries and zero delay, and in the rate limited then
success scenario the call recovers after exactly one retry and ExpertRunner
records the ok outcome with the backoff delay as duration. -/
theorem c7_retry_policy (base cap : Nat) (stub : InvokerStub) (s : Nat) :
    ((ModelInvoker.invoke (defaultPolicy base cap) stub s).callsMade ≤ 3) ∧
    (∀ i, i + 1 < (ModelInvoker.invoke (defaultPolicy base cap) stub s).callsMade →
      ∃ e, stub (s + i) = Except.error e ∧ retryable e = true) ∧
    ((ModelInvoker.invoke (defaultPolicy base cap) stub s).totalDelayMs =
      ∑ i ∈ Finset.range ((ModelInvoker.invoke (defaultPolicy base cap) stub s).callsMade - 1),
        backoffDelayMs (defaultPolicy base cap) i) ∧
    (∀ e, stub s = Except.error e → retryable e = false →
      ModelInvoker.invoke (defaultPolicy base cap) stub s = ⟨Except.error e, 1, 0⟩) ∧
    (∀ v, stub s = Except.error InvocationErrorKind.RateLimited →
      stub (s + 1) = Except.ok v →
      (ModelInvoker.invoke (defaultPolicy base cap) stub s = ⟨Except.ok v, 2, min base cap⟩) ∧
      ∀ budget persona task mode priors,
        ((ExpertRunner.run (defaultPolicy base cap) budget persona task mode priors stub s).1.outcome
            = Outcome.ok) ∧
        ((ExpertRunner.run (defaultPolicy base cap) budget persona task mode priors stub s).1.durationMs
            = min base cap) ∧
        ((ExpertRunner.run (defaultPolicy base cap) budget persona task mode priors stub s).2
            = s + 2)) := by
  refine ⟨?_, ?_, ?_, ?_, ?_⟩
  · have h := invokeFrom_callsMade_upper (defaultPolicy base cap) stub s 2 0 0
    show (invokeFrom (defaultPolicy base cap) stub s 2 0 0).callsMade ≤ 3
    omega
  · intro i hi
    exact invokeFrom_retried_retryable (defaultPolicy base cap) stub s 2 0 0 i (Nat.zero_le i) hi
  · have h := invokeFrom_delay (defaultPolicy base cap) stub s 2 0 0
    show (invokeFrom (defaultPolicy base cap) stub s 2 0 0).totalDelayMs =
      ∑ i ∈ Finset.range ((invokeFrom (defaultPolicy base cap) stub s 2 0 0).callsMade - 1),
        backoffDelayMs (defaultPolicy base cap) i
    rw [Finset.range_eq_Ico]
    simpa using h
  · intro e he hre
    exact invoke_nonretryable (defaultPolicy base cap) stub s e he hre
  · intro v h0 h1
    have hinv := invoke_rateLimited_then_ok base cap stub s v h0 h1
    refine ⟨hinv, fun budget persona task mode priors => ?_⟩
    have hrun := run_eq_of_invoke_ok (defaultPolicy base cap) budget persona task mode priors
      stub s v (by rw [hinv])
    rw [hrun, hinv]
    exact ⟨rfl, rfl, rfl⟩

/-- Witness for C7 at the rate limited then success stub: outcome ok after
exactly one retry with the base backoff delay of 100 ms. -/
theorem c7_witness :
    (ModelInvoker.invoke (defaultPolicy 100 1000) Fixtures.stubRetry 0 =
      ⟨Except.ok ⟨"recovered", 5, 0⟩, 2, 100⟩) ∧
    ((ExpertRunner.run (defaultPolicy 100 1000) 4000 Fixtures.personaA "t"
        ExecutionMode.synthesis [] Fixtures.stubRetry 0).1.outcome = Outcome.ok) ∧
    ((ExpertRunner.run (defaultPolicy 100 1000) 4000 Fixtures.personaA "t"
        ExecutionMode.synthesis [] Fixtures.stubRetry 0).1.durationMs = 100) := by
  have h := (c7_retry_policy 100 1000 Fixtures.stubRetry 0).2.2.2.2
    ⟨"recovered", 5, 0⟩ (by decide) (by decide)
  have hr := h.2 4000 Fixtures.personaA "t" ExecutionMode.synthesis []
  exact ⟨by simpa using h.1, hr.1, by simpa using hr.2.1⟩

/-- C8: ExpertRunner.run is total and containing: it yields exactly one
ExpertResult per invocation carrying the persona id, advances the call
counter by the calls actually made, converts a successful invocation into
an ok outcome and any ModelInvoker failure into a failed outcome with a
non empty reason, so no failure ever escapes. -/
theorem c8_runner_contains_failures (base cap budget : Nat) (persona : PersonaConfig)
    (task : String) (mode : ExecutionMode) (priors : List ExpertResult)
    (stub : InvokerStub) (c : Nat) :
    ((ExpertRunner.run (defaultPolicy base cap) budget persona task mode priors stub c).1.personaId
        = persona.id) ∧
    ((ExpertRunner.run (defaultPolicy base cap) budget persona task mode priors stub c).2
        = c + (ModelInvoker.invoke (defaultPolicy base cap) stub c).callsMade) ∧
    (∀ v, (ModelInvoker.invoke (defaultPolicy base cap) stub c).result = Except.ok v →
      (ExpertRunner.run (defaultPolicy base cap) budget persona task mode priors stub c).1.outcome
        = Outcome.ok) ∧
    (∀ e, (ModelInvoker.invoke (defaultPolicy base cap) stub c).result = Except.error e →
      (ExpertRunner.run (defaultPolicy base cap) budget persona task mode priors stub c).1.outcome
          = Outcome.failed (errorReason e) ∧ errorReason e ≠ "") ∧
    ((ExpertRunner.run (defaultPolicy base cap) budget persona task mode priors stub c).1.outcome
        = Outcome.ok ∨
      ∃ reason, (ExpertRunner.run (defaultPolicy base cap) budget persona task mode priors stub c).1.outcome
          = Outcome.failed reason ∧ reason ≠ "") := by
  cases hres : (ModelInvoker.invoke (defaultPolicy base cap) stub c).result with
  | error e =>
      have hrun := run_eq_of_invoke_error (defaultPolicy base cap) budget persona task mode
        priors stub c e hres
      have hreason : errorReason e ≠ "" := by cases e <;> simp [errorReason]
      refine ⟨by rw [hrun], by rw [hrun], ?_, ?_, ?_⟩
      · intro v hv
        exact absurd hv (by simp)
      · intro e2 he2
        have h2 : e = e2 := by injection he2
        subst h2
        exact ⟨by rw [hrun], hreason⟩
      · exact Or.inr ⟨errorReason e, by rw [hrun], hreason⟩
  | ok v =>
      have hrun := run_eq_of_invoke_ok (defaultPolicy base cap) budget persona task mode
        priors stub c v hres
      refine ⟨by rw [hrun], by rw [hrun], ?_, ?_, ?_⟩
      · intro v2 _
        rw [hrun]
      · intro e2 he2
        exact absurd he2 (by simp)
      · exact Or.inl (by rw [hrun])

/-- Witness for C8 at the always failing stub: the runner result is the
failed outcome carrying the provider error reason. -/
theorem c8_witness :
    (ExpertRunner.run (defaultPolicy 100 1000) 4000 Fixtures.personaA "t"
        ExecutionMode.synthesis [] Fixtures.stubFail 0).1.outcome
      = Outcome.failed (errorReason InvocationErrorKind.ProviderError) :=
  have h := c8_runner_contains_failures 100 1000 4000 Fixtures.personaA "t"
    ExecutionMode.synthesis [] Fixtures.stubFail 0
  (h.2.2.2.1 InvocationErrorKind.ProviderError (by decide)).1

theorem mode_name_mem (m : Dashboard.ExecutionMode) : m.name ∈ Dashboard.codeModeNames := by
  cases m <;> simp [Dashboard.ExecutionMode.name, Dashboard.codeModeNames]

theorem bump_fst_mem :
    ∀ (acc : List (String × Nat)) (k : String), ∀ kv ∈ Dashboard.bump acc k,
      kv.1 = k ∨ kv.1 ∈ acc.map Prod.fst := by
  intro acc
  induction acc with
  | nil =>
      intro k kv hkv
      simp [Dashboard.bump] at hkv
      simp [hkv]
  | cons hd tl ih =>
      intro k kv hkv
      obtain ⟨k', n⟩ := hd
      by_cases hk : k' = k
      · simp only [Dashboard.bump, if_pos hk, List.mem_cons] at hkv
        rcases hkv with hkv | hkv
        · simp [hkv]
        · right
          simp only [List.map_cons, List.mem_cons]
          right
          exact List.mem_map_of_mem Prod.fst hkv
      · simp only [Dashboard.bump, if_neg hk, List.mem_cons] at hkv
        rcases hkv with hkv | hkv
        · right
          simp [hkv]
        · rcases ih k kv hkv with h | h
          · exact Or.inl h
          · right
            simp only [List.map_cons, List.mem_cons]
            exact Or.inr h

theorem foldl_bump_names :
    ∀ (ds : List Dashboard.DecisionRecord) (acc : List (String × Nat)),
      (∀ kv ∈ acc, kv.1 ∈ Dashboard.codeModeNames) →
      ∀ kv ∈ ds.foldl (fun a d => Dashboard.bump a d.mode.name) acc,
        kv.1 ∈ Dashboard.codeModeNames := by
  intro ds
  induction ds with
  | nil => intro acc hacc kv hkv; simpa using hacc kv hkv
  | cons d tl ih =>
      intro acc hacc kv hkv
      simp only [List.foldl_cons] at hkv
      refine ih (Dashboard.bump acc d.mode.name) ?_ kv hkv
      intro kv2 hkv2
      rcases bump_fst_mem acc d.mode.name kv2 hkv2 with h | h
      · rw [h]
        exact mode_name_mem d.mode
      · obtain ⟨kv3, hkv3, hfst⟩ := List.mem_map.mp h
        rw [← hfst]
        exact hacc kv3 hkv3

/-- C1, counterexample: the claim that every stored per mode key is one of
separated, synthesis, debate, pipeline fails already on the empty decision
list, whose mode distribution carries the key parallel. -/
theorem c1_counterexample :
    ¬ (∀ kv ∈ (Dashboard.calculateMetrics []).modeDistribution,
        kv.1 ∈ Dashboard.specModeNames) := by
  intro h
  have := h ("parallel", 0) (by decide)
  simp [Dashboard.specModeNames] at this

/-- C1, amended: the execution mode type of the code is an enumerated
variant with exactly four cases, but their names are parallel, consensus,
adversarial, sequential; every mode value stored in ReportRouting or
aggregated into the per mode metrics distribution is one of these four. -/
theorem c1_amended_mode_names :
    (∀ m : Dashboard.ExecutionMode,
      m ∈ [Dashboard.ExecutionMode.parallel, Dashboard.ExecutionMode.consensus,
           Dashboard.ExecutionMode.adversarial, Dashboard.ExecutionMode.sequential]) ∧
    ([Dashboard.ExecutionMode.parallel, Dashboard.ExecutionMode.consensus,
      Dashboard.ExecutionMode.adversarial, Dashboard.ExecutionMode.sequential]
        : List Dashboard.ExecutionMode).Nodup ∧
    (∀ m : Dashboard.ExecutionMode, m.name ∈ Dashboard.codeModeNames) ∧
    (∀ rr : Features.ReportRouting, rr.executionMode.name ∈ Dashboard.codeModeNames) ∧
    (∀ ds : List Dashboard.DecisionRecord,
      ∀ kv ∈ (Dashboard.calculateMetrics ds).modeDistribution,
        kv.1 ∈ Dashboard.codeModeNames) := by
  refine ⟨fun m => by cases m <;> simp, by decide, mode_name_mem,
    fun rr => mode_name_mem rr.executionMode, ?_⟩
  intro ds kv hkv
  cases ds with
  | nil =>
      exact (by decide :
        ∀ kv ∈ (Dashboard.calculateMetrics []).modeDistribution,
          kv.1 ∈ Dashboard.codeModeNames) kv hkv
  | cons d tl =>
      have hkv2 : kv ∈ (d :: tl).foldl (fun a x => Dashboard.bump a x.mode.name) [] := by
        simpa [Dashboard.calculateMetrics] using hkv
      exact foldl_bump_names (d :: tl) [] (by simp) kv hkv2

/-- Witness for the amended C1 at the empty decision list. -/
theorem c1_amended_witness :
    ("parallel", 0) ∈ (Dashboard.calculateMetrics []).modeDistribution ∧
    "parallel" ∈ Dashboard.codeModeNames :=
  ⟨by decide, c1_amended_mode_names.2.2.2.2 [] ("parallel", 0) (by decide)⟩

theorem mapSet_get_self :
    ∀ (m : List (String × Plugins.ExpertPlugin)) (p : Plugins.ExpertPlugin),
      Plugins.getExpertPlugin (Plugins.registerExpertPlugin m p) p.id = some p := by
  intro m p
  induction m with
  | nil =>
      simp [Plugins.registerExpertPlugin, Plugins.mapSet, Plugins.getExpertPlugin, List.find?]
  | cons hd tl ih =>
      obtain ⟨k', v'⟩ := hd
      by_cases hk : k' = p.id
      · simp [Plugins.registerExpertPlugin, Plugins.mapSet, Plugins.getExpertPlugin,
          hk, List.find?]
      · simpa [Plugins.registerExpertPlugin, Plugins.mapSet, Plugins.getExpertPlugin,
          hk, List.find?] using ih

theorem mapSet_fst_mem :
    ∀ (m : List (String × Plugins.ExpertPlugin)) (k : String) (v : Plugins.ExpertPlugin),
      ∀ x ∈ (Plugins.mapSet m k v).map Prod.fst, x = k ∨ x ∈ m.map Prod.fst := by
  intro m
  induction m with
  | nil =>
      intro k v x hx
      simp [Plugins.mapSet] at hx
      exact Or.inl hx
  | cons hd tl ih =>
      intro k v x hx
      obtain ⟨k', v'⟩ := hd
      by_cases hk : k' = k
      · simp only [Plugins.mapSet, if_pos hk, List.map_cons, List.mem_cons] at hx
        rcases hx with hx | hx
        · exact Or.inl hx
        · right
          simp only [List.map_cons, List.mem_cons]
          exact Or.inr hx
      · simp only [Plugins.mapSet, if_neg hk, List.map_cons, List.mem_cons] at hx
        rcases hx with hx | hx
        · right
          simp [hx]
        · rcases ih k v x hx with h | h
          · exact Or.inl h
          · right
            simp only [List.map_cons, List.mem_cons]
            exact Or.inr h

theorem register_wf :
    ∀ (m : List (String × Plugins.ExpertPlugin)) (p : Plugins.ExpertPlugin),
      Plugins.WellFormed m → Plugins.WellFormed (Plugins.registerExpertPlugin m p) := by
  intro m
  induction m with
  | nil =>
      intro p _
      exact ⟨by simp [Plugins.registerExpertPlugin, Plugins.mapSet],
        by simp [Plugins.registerExpertPlugin, Plugins.mapSet]⟩
  | cons hd tl ih =>
      intro p hwf
      obtain ⟨k', v'⟩ := hd
      obtain ⟨hids, hnodup⟩ := hwf
      simp only [List.map_cons, List.nodup_cons] at hnodup
      have htlwf : Plugins.WellFormed tl := ⟨fun kv hkv => hids kv (by simp [hkv]), hnodup.2⟩
      by_cases hk : k' = p.id
      · refine ⟨?_, ?_⟩
        · intro kv hkv
          simp only [Plugins.registerExpertPlugin, Plugins.mapSet, if_pos hk,
            List.mem_cons] at hkv
          rcases hkv with hkv | hkv
          · simp [hkv]
          · exact hids kv (by simp [hkv])
        · simp only [Plugins.registerExpertPlugin, Plugins.mapSet, if_pos hk,
            List.map_cons, List.nodup_cons]
          rw [← hk]
          exact hnodup
      · obtain ⟨hids2, hnodup2⟩ := ih p htlwf
        refine ⟨?_, ?_⟩
        · intro kv hkv
          simp only [Plugins.registerExpertPlugin, Plugins.mapSet, if_neg hk,
            List.mem_cons] at hkv
          rcases hkv with hkv | hkv
          · rw [hkv]
            exact hids (k', v') (by simp)
          · exact hids2 kv hkv
        · simp only [Plugins.registerExpertPlugin, Plugins.mapSet, if_neg hk,
            List.map_cons, List.nodup_cons]
          refine ⟨?_, hnodup2⟩
          intro hmem
          rcases mapSet_fst_mem tl p.id p k' hmem with h | h
          · exact hk h
          · exact hnodup.1 h

theorem register_replace :
    ∀ (m : List (String × Plugins.ExpertPlugin)) (p q : Plugins.ExpertPlugin),
      q.id = p.id →
      Plugins.registerExpertPlugin (Plugins.registerExpertPlugin m p) q
        = Plugins.registerExpertPlugin m q := by
  intro m
  induction m with
  | nil =>
      intro p q hq
      simp [Plugins.registerExpertPlugin, Plugins.mapSet, hq]
  | cons hd tl ih =>
      intro p q hq
      obtain ⟨k', v'⟩ := hd
      by_cases hk : k' = p.id
      · simp [Plugins.registerExpertPlugin, Plugins.mapSet, hk, hq]
      · have ih2 := ih p q hq
        simp only [Plugins.registerExpertPlugin, Plugins.mapSet, hq, if_neg hk]
        simp only [Plugins.registerExpertPlugin] at ih2
        rw [hq] at ih2
        rw [ih2]

theorem getAll_count :
    ∀ (m : List (String × Plugins.ExpertPlugin)), Plugins.WellFormed m →
      ∀ i, ((Plugins.getAllExpertPlugins m).filter (fun q => q.id == i)).length ≤ 1 := by
  intro m
  induction m with
  | nil => intro _ i; simp [Plugins.getAllExpertPlugins]
  | cons hd tl ih =>
      intro hwf i
      obtain ⟨k, v⟩ := hd
      obtain ⟨hids, hnodup⟩ := hwf
      simp only [List.map_cons, List.nodup_cons] at hnodup
      have hvid : v.id = k := hids (k, v) (by simp)
      have htlwf : Plugins.WellFormed tl := ⟨fun kv hkv => hids kv (by simp [hkv]), hnodup.2⟩
      simp only [Plugins.getAllExpertPlugins, List.map_cons, List.filter_cons]
      cases hqi : (v.id == i) with
      | false =>
          simpa [Plugins.getAllExpertPlugins, hqi] using ih htlwf i
      | true =>
          have hvi : v.id = i := by simpa using hqi
          have hnil : (Plugins.getAllExpertPlugins tl).filter (fun q => q.id == i) = [] := by
            apply List.filter_eq_nil_iff.mpr
            intro q hq
            obtain ⟨kv, hkv, hkveq⟩ := List.mem_map.mp hq
            have hqid : q.id = kv.1 := by
              rw [← hkveq]
              exact hids kv (by simp [hkv])
            have hkmem : kv.1 ∈ tl.map Prod.fst := List.mem_map_of_mem Prod.fst hkv
            have hqi2 : q.id ≠ i := by
              intro he
              have hkeq : kv.1 = k := by rw [← hqid, he, ← hvi, hvid]
              exact hnodup.1 (hkeq ▸ hkmem)
            simpa using hqi2
          simp only [Plugins.getAllExpertPlugins] at hnil
          simp [hqi, hnil]

/-- C9: the plugin registry satisfies the register and get round trip, a
second registration under the same id replaces the first, registration
preserves well formedness of the underlying map, and on a well formed
registry getAllExpertPlugins holds at most one plugin per id. -/
theorem c9_plugin_registry :
    (∀ (m : List (String × Plugins.ExpertPlugin)) (p : Plugins.ExpertPlugin),
      Plugins.getExpertPlugin (Plugins.registerExpertPlugin m p) p.id = some p) ∧
    (∀ (m : List (String × Plugins.ExpertPlugin)) (p q : Plugins.ExpertPlugin),
      q.id = p.id →
      Plugins.registerExpertPlugin (Plugins.registerExpertPlugin m p) q
        = Plugins.registerExpertPlugin m q) ∧
    (∀ (m : List (String × Plugins.ExpertPlugin)) (p : Plugins.ExpertPlugin),
      Plugins.WellFormed m → Plugins.WellFormed (Plugins.registerExpertPlugin m p)) ∧
    (∀ m : List (String × Plugins.ExpertPlugin), Plugins.WellFormed m →
      ∀ i, ((Plugins.getAllExpertPlugins m).filter (fun q => q.id == i)).length ≤ 1) :=
  ⟨mapSet_get_self, register_replace, register_wf, getAll_count⟩

/-- Witness for C9 at two concrete plugins sharing one id. -/
theorem c9_witness :
    (Plugins.getExpertPlugin
        (Plugins.registerExpertPlugin
          (Plugins.registerExpertPlugin [] Fixtures.pluginP) Fixtures.pluginQ)
        Fixtures.pluginQ.id = some Fixtures.pluginQ) ∧
    (((Plugins.getAllExpertPlugins
        (Plugins.registerExpertPlugin
          (Plugins.registerExpertPlugin [] Fixtures.pluginP) Fixtures.pluginQ)).filter
        (fun q => q.id == "core-ai-expert")).length ≤ 1) :=
  ⟨c9_plugin_registry.1 _ Fixtures.pluginQ,
   c9_plugin_registry.2.2.2 _
     (c9_plugin_registry.2.2.1 _ Fixtures.pluginQ
       (c9_plugin_registry.2.2.1 [] Fixtures.pluginP ⟨by simp, by simp⟩))
     "core-ai-expert"⟩

/-- C10: when the store holds a feature with the result featureId,
completeExecution removes exactly the active executions carrying the result
executionId, prepends one history entry derived from the result, keeps the
feature list length, bumps totalRuns by one on the matching feature and
leaves the other features untouched; when no feature matches, the state is
returned unchanged. -/
theorem c10_complete_execution (state : Features.FeaturesState)
    (result : Features.ExecutionResult) :
    ((∃ f ∈ state.features, f.id = result.featureId) →
      (∀ e ∈ (Features.completeExecution state result).activeExecutions,
        e ∈ state.activeExecutions ∧ e.executionId ≠ result.executionId) ∧
      (∀ e ∈ state.activeExecutions, e.executionId ≠ result.executionId →
        e ∈ (Features.completeExecution state result).activeExecutions) ∧
      ((Features.completeExecution state result).executionHistory
        = Features.mkHistoryEntry result :: state.executionHistory) ∧
      ((Features.completeExecution state result).features.length = state.features.length) ∧
      (∀ k (hk : k < state.features.length)
          (hk2 : k < (Features.completeExecution state result).features.length),
        ((state.features.get ⟨k, hk⟩).id = result.featureId →
          ((Features.completeExecution state result).features.get ⟨k, hk2⟩).metrics.totalRuns
            = (state.features.get ⟨k, hk⟩).metrics.totalRuns + 1) ∧
        ((state.features.get ⟨k, hk⟩).id ≠ result.featureId →
          (Features.completeExecution state result).features.get ⟨k, hk2⟩
            = state.features.get ⟨k, hk⟩))) ∧
    ((¬ ∃ f ∈ state.features, f.id = result.featureId) →
      Features.completeExecution state result = state) := by
  constructor
  · intro h
    have hsome : ∃ g, state.features.find? (fun f => f.id == result.featureId) = some g := by
      obtain ⟨f, hf, hid⟩ := h
      have hs : (state.features.find? (fun f => f.id == result.featureId)).isSome :=
        List.find?_isSome.mpr ⟨f, hf, by simp [hid]⟩
      exact Option.isSome_iff_exists.mp hs
    obtain ⟨g, hg⟩ := hsome
    have hce : Features.completeExecution state result =
        { features := state.features.map
            (fun f => if f.id ≠ result.featureId then f else Features.updatedFeature f result)
          activeExecutions := state.activeExecutions.filter
            (fun e => e.executionId != result.executionId)
          executionHistory := Features.mkHistoryEntry result :: state.executionHistory } := by
      simp only [Features.completeExecution, hg]
    refine ⟨?_, ?_, ?_, ?_, ?_⟩
    · intro e he
      rw [hce] at he
      have hmf := List.mem_filter.mp he
      exact ⟨hmf.1, by simpa using hmf.2⟩
    · intro e he hne
      rw [hce]
      exact List.mem_filter.mpr ⟨he, by simpa using hne⟩
    · rw [hce]
    · rw [hce]
      simp only [List.length_map]
    · intro k hk hk2
      simp only [hce, List.get_eq_getElem, List.getElem_map]
      by_cases hid : state.features[k].id = result.featureId
      · refine ⟨fun _ => ?_, fun hne => absurd hid hne⟩
        rw [if_neg (not_not_intro hid)]
        simp [Features.updatedFeature]
      · refine ⟨fun hid2 => absurd hid2 hid, fun _ => ?_⟩
        rw [if_pos hid]
  · intro h
    have hnone : state.features.find? (fun f => f.id == result.featureId) = none := by
      rw [List.find?_eq_none]
      intro f hf hb
      exact h ⟨f, hf, by simpa using hb⟩
    simp [Features.completeExecution, hnone]

/-- Witness for C10 at a concrete store with one feature and one active
execution. -/
theorem c10_witness :
    ((Features.completeExecution Fixtures.stateW Fixtures.resultW).executionHistory
      = Features.mkHistoryEntry Fixtures.resultW :: Fixtures.stateW.executionHistory) ∧
    ((Features.completeExecution Fixtures.stateW Fixtures.resultW).features.length
      = Fixtures.stateW.features.length) := by
  have h := (c10_complete_execution Fixtures.stateW Fixtures.resultW).1
    ⟨Fixtures.featureW, by simp [Fixtures.stateW], by decide⟩
  exact ⟨h.2.2.1, h.2.2.2.1⟩

end Claims
